import Mathlib

/- Verification of the authentication module of the logi-credit repository
(src/david/src/david/auth.py) against its specification.

Modelling conventions of the shallow embedding:
  * Python strings are lists of characters (`List Char`), byte strings are
    lists of naturals below 256 (`List Nat`), wall-clock instants and
    durations are rationals.
  * External library primitives that the module merely calls are taken as
    function parameters: `hmacF` stands for hmac.new(...).digest(),
    `pbkdf2F` for hashlib.pbkdf2_hmac, `entropy` for secrets.token_bytes,
    and `tj`/`fj` for json.dumps/json.loads specialised to the access-token
    claims record.  Everything defined in auth.py itself (base64url with
    padding stripped, token assembly, repositories, the rate limiter, the
    policy arithmetic, the service orchestration) is embedded concretely.
  * Python dicts become association lists with insertion-order semantics;
    raising an exception becomes returning an `Except` error value together
    with the state visible to the caller at the moment of the raise.  -/

-- ==========================================================
-- String helpers (Python str methods used by auth.py)
-- ==========================================================

def lowerStr (s : List Char) : List Char := s.map Char.toLower

def pyIsSpace (c : Char) : Bool :=
  c = ' ' || c = '\t' || c = '\n' || c = '\r' || c = '\x0b' || c = '\x0c'

def stripStr (s : List Char) : List Char :=
  ((s.dropWhile pyIsSpace).reverse.dropWhile pyIsSpace).reverse

/- Embeds `_norm_username`: re.sub(r"\s+", "", name.strip().lower()). -/
def norm_username (s : List Char) : List Char :=
  (lowerStr (stripStr s)).filter (fun c => !(pyIsSpace c))

def isAsciiLetter (c : Char) : Bool :=
  ('A' ≤ c && c ≤ 'Z') || ('a' ≤ c && c ≤ 'z')

/- Embeds `validate_email`: full match of ^[^@\s]+@[^@\s]+\.[A-Za-z]{2,}$.
The local part runs to the first '@'; the rest must be '@'-free and
whitespace-free and end in a dot followed by at least two ASCII letters,
with a nonempty part before that dot. -/
def validate_email (s : List Char) : Bool :=
  let lr := s.span (fun c => c ≠ '@')
  match lr.2 with
  | [] => false
  | _ :: domain =>
    let tr := domain.reverse.span (fun c => isAsciiLetter c)
    (decide (lr.1 ≠ [])) && lr.1.all (fun c => !(pyIsSpace c)) &&
    domain.all (fun c => !(pyIsSpace c) && c ≠ '@') &&
    (decide (2 ≤ tr.1.length)) &&
    (match tr.2 with
     | '.' :: before => decide (before ≠ [])
     | _ => false)

/- Embeds Python str.split(sep) for a one-character separator. -/
def splitOnChar (sep : Char) : List Char → List (List Char)
  | [] => [[]]
  | c :: rest =>
    match splitOnChar sep rest with
    | [] => [[]]
    | s :: ss => if c = sep then [] :: s :: ss else (c :: s) :: ss

/- Decides whether `needle` occurs as a contiguous substring of the second
argument (Python `in` on strings / re.search on a literal pattern). -/
def isSubAt : List Char → List Char → Bool
  | [], _ => true
  | _ :: _, [] => false
  | a :: as_, b :: bs => a = b && isSubAt as_ bs

def containsSub (needle : List Char) : List Char → Bool
  | [] => needle.isEmpty
  | b :: bs => isSubAt needle (b :: bs) || containsSub needle (b :: bs).tail

-- ==========================================================
-- Association lists with Python-dict semantics
-- ==========================================================

def dictGet {α β : Type} [DecidableEq α] (l : List (α × β)) (k : α) : Option β :=
  match l with
  | [] => none
  | (k', v) :: rest => if k' = k then some v else dictGet rest k

def dictContains {α β : Type} [DecidableEq α] (l : List (α × β)) (k : α) : Bool :=
  (dictGet l k).isSome

/- Assignment `d[k] = v`: replaces in place when the key is present,
appends otherwise (Python dicts keep insertion order). -/
def dictInsert {α β : Type} [DecidableEq α] (l : List (α × β)) (k : α) (v : β) :
    List (α × β) :=
  match l with
  | [] => [(k, v)]
  | (k', v') :: rest =>
    if k' = k then (k, v) :: rest else (k', v') :: dictInsert rest k v

/- Embeds dict.pop(k, None): removes the key when present. -/
def dictPop {α β : Type} [DecidableEq α] (l : List (α × β)) (k : α) : List (α × β) :=
  match l with
  | [] => []
  | (k', v') :: rest => if k' = k then rest else (k', v') :: dictPop rest k

def dictKeys {α β : Type} (l : List (α × β)) : List α := l.map Prod.fst

-- ==========================================================
-- base64url (RFC 4648 url-safe alphabet), as used by auth.py:
-- `base64url` strips the '=' padding after encoding, and decoding
-- first re-appends the padding.
-- ==========================================================

def b64alphabet : List Char :=
  ("ABCDEFGHIJKLMNOPQRSTUVWXYZabcdefghijklmnopqrstuvwxyz0123456789-_").toList

def b64char (n : Nat) : Char := b64alphabet.getD n 'A'

def b64val (c : Char) : Option Nat :=
  if c ∈ b64alphabet then some (b64alphabet.indexOf c) else none

/- Embeds `base64url(data)`: urlsafe_b64encode with the padding removed. -/
def b64enc : List Nat → List Char
  | a :: b :: c :: rest =>
      b64char (a / 4) :: b64char (a % 4 * 16 + b / 16) ::
      b64char (b % 16 * 4 + c / 64) :: b64char (c % 64) :: b64enc rest
  | [a, b] => [b64char (a / 4), b64char (a % 4 * 16 + b / 16), b64char (b % 16 * 4)]
  | [a] => [b64char (a / 4), b64char (a % 4 * 16)]
  | [] => []

/- Re-appends '=' padding: s + "=" * (-len(s) % 4). -/
def repad (s : List Char) : List Char :=
  s ++ List.replicate ((4 - s.length % 4) % 4) '='

/- Embeds base64.urlsafe_b64decode on a padded input, four characters at a
time; `none` models the binascii.Error raised on malformed input. -/
def b64dec : List Char → Option (List Nat)
  | c1 :: c2 :: c3 :: c4 :: rest =>
    match b64val c1, b64val c2 with
    | some v1, some v2 =>
      if c3 = '=' then
        (if c4 = '=' && rest.isEmpty then some [v1 * 4 + v2 / 16] else none)
      else
        match b64val c3 with
        | some v3 =>
          if c4 = '=' then
            (if rest.isEmpty then some [v1 * 4 + v2 / 16, v2 % 16 * 16 + v3 / 4] else none)
          else
            match b64val c4, b64dec rest with
            | some v4, some bs =>
                some ((v1 * 4 + v2 / 16) :: (v2 % 16 * 16 + v3 / 4) :: (v3 % 4 * 64 + v4) :: bs)
            | _, _ => none
        | none => none
    | _, _ => none
  | [] => some []
  | _ => none

abbrev validBytes (bs : List Nat) : Prop := ∀ b ∈ bs, b < 256


-- ==========================================================
-- Exceptions (the AuthError hierarchy plus Python builtins that
-- escape the module undeclared)
-- ==========================================================

inductive AuthErr where
  | authError (msg : List Char)
  | userAlreadyExists (msg : List Char)
  | invalidCredentials (msg : List Char)
  | passwordPolicyError (msg : List Char)
  | tokenError (msg : List Char)
  | valueError
  | typeError
deriving DecidableEq

def AuthErr.isTokenError : AuthErr → Bool
  | .tokenError _ => true
  | _ => false

-- ==========================================================
-- AccessTokenClaims and the token codec
-- ==========================================================

structure AccessTokenClaims where
  sub : List Char
  iat : Int
  exp : Int
  roles : List (List Char)
  permissions : List (List Char)
  token_id : List Char
  user_id : Option Nat
  username : Option (List Char)
deriving DecidableEq

/- Byte encoding of a Python str (used only on ASCII payloads: base64
segments, dots, compact JSON of the fixed header). -/
def asciiBytes (s : List Char) : List Nat := s.map Char.toNat

/- The fixed codec header json.dumps(TokenCodec.HEADER, separators=(",", ":")). -/
def headerJsonChars : List Char :=
  ("\x7b\"alg\":\"HS256\",\"typ\":\"david.atk\"\x7d").toList

def headerSegment : List Char := b64enc (asciiBytes headerJsonChars)

/- Embeds TokenCodec.encode.  `tj` stands for claims.to_json().encode(),
`hmacF key msg` for hmac.new(key, msg, sha256).digest(). -/
def TokenCodec.encode (tj : AccessTokenClaims → List Nat)
    (hmacF : List Nat → List Nat → List Nat) (key : List Nat)
    (claims : AccessTokenClaims) : List Char :=
  let header_b := headerSegment
  let payload_b := b64enc (tj claims)
  let signing_input := asciiBytes (header_b ++ '.' :: payload_b)
  let sig := b64enc (hmacF key signing_input)
  header_b ++ '.' :: payload_b ++ '.' :: sig

/- Embeds TokenCodec.decode.  `fj` stands for
AccessTokenClaims.from_json(data.decode()); a `none` from `fj` or from the
base64 decoder models the ValueError/binascii.Error that the source lets
escape (only TokenError cases are raised by decode itself). -/
def TokenCodec.decode (fj : List Nat → Option AccessTokenClaims)
    (hmacF : List Nat → List Nat → List Nat) (key : List Nat)
    (token : List Char) : Except AuthErr AccessTokenClaims :=
  match splitOnChar '.' token with
  | [header_b, payload_b, sig_b] =>
    let signing_input := asciiBytes (header_b ++ '.' :: payload_b)
    let expected := b64enc (hmacF key signing_input)
    if expected = sig_b then
      match b64dec (repad payload_b) with
      | some data =>
        match fj data with
        | some claims => .ok claims
        | none => .error .valueError
      | none => .error .valueError
    else .error (.tokenError (("Invalid signature").toList))
  | _ => .error (.tokenError (("Malformed token").toList))

-- ==========================================================
-- Password hashing / policy
-- ==========================================================

structure PasswordHash where
  algorithm : List Char
  salt : List Char
  iterations : Nat
  hash : List Char
deriving DecidableEq

/- Embeds PasswordHasher.hash.  `pbkdf2F password salt iterations` stands
for hashlib.pbkdf2_hmac("sha256", password, salt, iterations). -/
def PasswordHasher.hash (pbkdf2F : List Char → List Char → Nat → List Nat)
    (entropy : Nat → List Nat) (iterations : Nat) (password : List Char) : PasswordHash :=
  let salt := b64enc (entropy 16)
  { algorithm := ("pbkdf2_sha256").toList, salt := salt, iterations := iterations,
    hash := b64enc (pbkdf2F password salt iterations) }

/- Embeds PasswordHasher.verify, including the google_oauth sentinel check
and the constant-time digest comparison. -/
def PasswordHasher.verify (pbkdf2F : List Char → List Char → Nat → List Nat)
    (password : List Char) (stored : PasswordHash) : Bool :=
  if stored.algorithm = ("google_oauth").toList then false
  else b64enc (pbkdf2F password stored.salt stored.iterations) = stored.hash

def varietyCount (pw : List Char) : Nat :=
  (if pw.any (fun c => 'a' ≤ c && c ≤ 'z') then 1 else 0) +
  (if pw.any (fun c => 'A' ≤ c && c ≤ 'Z') then 1 else 0) +
  (if pw.any (fun c => '0' ≤ c && c ≤ '9') then 1 else 0) +
  (if pw.any (fun c =>
      !(('a' ≤ c && c ≤ 'z') || ('A' ≤ c && c ≤ 'Z') || ('0' ≤ c && c ≤ '9'))) then 1 else 0)

def hasWeakPattern (pw : List Char) : Bool :=
  containsSub (("password").toList) (lowerStr pw) ||
  containsSub (("1234").toList) (lowerStr pw) ||
  containsSub (("qwer").toList) (lowerStr pw) ||
  containsSub (("abcd").toList) (lowerStr pw)

/- Embeds estimate_password_strength (exact rational arithmetic in place of
Python floats; every comparison a claim relies on is at distance at least
1/400 from the 0.55 threshold, far beyond double rounding error). -/
def estimate_password_strength (pw : List Char) : ℚ :=
  let length_score : ℚ := min ((pw.length : ℚ) / 16) 1
  let variety_score : ℚ := (varietyCount pw : ℚ) / 4
  let penalty : ℚ := if hasWeakPattern pw then 0.25 else 0
  max 0 (min 1 (0.6 * length_score + 0.4 * variety_score - penalty))

/- Embeds enforce_password_policy. -/
def enforce_password_policy (pw : List Char) : Except AuthErr Unit :=
  if pw.length < 10 then
    .error (.passwordPolicyError (("Password too short (min 10).").toList))
  else if estimate_password_strength pw < 0.55 then
    .error (.passwordPolicyError (("Password too weak; include length & variety.").toList))
  else .ok ()

-- ==========================================================
-- Roles and users
-- ==========================================================

/- Embeds DEFAULT_ROLES.get(name): permissions of the static role table. -/
def rolePermissions (r : List Char) : List (List Char) :=
  if r = ("user").toList then [("read:self").toList]
  else if r = ("admin").toList then
    [("read:self").toList, ("read:any").toList, ("user:create").toList, ("user:delete").toList]
  else []

/- Python sets are modelled as duplicate-free lists; a set literal or
set(xs) built from a list becomes this deduplication. -/
def dedupStrs : List (List Char) → List (List Char)
  | [] => []
  | s :: ss => let r := dedupStrs ss; if r.contains s then r else s :: r

structure User where
  id : Nat
  username : List Char
  email : List Char
  password_hash : PasswordHash
  roles : List (List Char)
  permissions : List (List Char)
  created_at : ℚ
  last_login : Option ℚ
  refresh_tokens : List (List Char × ℚ)
deriving DecidableEq

/- Embeds User.all_permissions (a set union; order is irrelevant because
the service sorts before embedding into a token). -/
def User.all_permissions (u : User) : List (List Char) :=
  dedupStrs (u.permissions ++ (u.roles.map rolePermissions).flatten)

/- Lexicographic string order used to model Python sorted() on str. -/
def strLe (a b : List Char) : Bool :=
  match a, b with
  | [], _ => true
  | _ :: _, [] => false
  | x :: xs, y :: ys => if x = y then strLe xs ys else decide (x.toNat < y.toNat)

def insertSorted (s : List Char) : List (List Char) → List (List Char)
  | [] => [s]
  | t :: ts => if strLe s t then s :: t :: ts else t :: insertSorted s ts

def sortStrs : List (List Char) → List (List Char)
  | [] => []
  | s :: ss => insertSorted s (sortStrs ss)

-- ==========================================================
-- InMemoryUserRepository
-- ==========================================================

structure InMemoryUserRepository where
  users : List (List Char × User)
  users_by_id : List (Nat × User)
  users_by_email : List (List Char × User)
  next_user_id : Nat
deriving DecidableEq

def emptyRepo : InMemoryUserRepository := ⟨[], [], [], 1⟩

/- Embeds InMemoryUserRepository._next_id. -/
def InMemoryUserRepository.next_id (r : InMemoryUserRepository) :
    Nat × InMemoryUserRepository :=
  (r.next_user_id, { r with next_user_id := r.next_user_id + 1 })

/- Embeds InMemoryUserRepository.get (lookup by normalized username). -/
def InMemoryUserRepository.get (r : InMemoryUserRepository) (username : List Char) :
    Option User :=
  dictGet r.users (norm_username username)

/- Embeds InMemoryUserRepository.add: fails on a normalized-username
collision, otherwise writes all three indexes. -/
def InMemoryUserRepository.add (r : InMemoryUserRepository) (u : User) :
    Except AuthErr InMemoryUserRepository :=
  let key := norm_username u.username
  if dictContains r.users key then .error (.userAlreadyExists u.username)
  else .ok { r with
    users := dictInsert r.users key u,
    users_by_id := dictInsert r.users_by_id u.id u,
    users_by_email := dictInsert r.users_by_email (lowerStr u.email) u }

/- Embeds InMemoryUserRepository.update: fails when the key is absent. -/
def InMemoryUserRepository.update (r : InMemoryUserRepository) (u : User) :
    Except AuthErr InMemoryUserRepository :=
  let key := norm_username u.username
  if dictContains r.users key then
    .ok { r with
      users := dictInsert r.users key u,
      users_by_id := dictInsert r.users_by_id u.id u,
      users_by_email := dictInsert r.users_by_email (lowerStr u.email) u }
  else .error (.authError (("Cannot update missing user").toList))

-- ==========================================================
-- Rate limiting (token bucket)
-- ==========================================================

structure TokenBucket where
  capacity : ℚ
  refill_rate_per_sec : ℚ
  tokens : ℚ
  last_refill : ℚ
deriving DecidableEq

/- Embeds TokenBucket.allow: lazy refill from elapsed wall time, then
consume the cost when at least that many tokens are available. -/
def TokenBucket.allow (b : TokenBucket) (now : ℚ) (cost : ℚ) : Bool × TokenBucket :=
  let elapsed := now - b.last_refill
  let tokens := min b.capacity (b.tokens + elapsed * b.refill_rate_per_sec)
  if cost ≤ tokens then
    (true, { b with tokens := tokens - cost, last_refill := now })
  else
    (false, { b with tokens := tokens, last_refill := now })

structure RateLimiter where
  capacity : ℚ
  refill : ℚ
  buckets : List (List Char × TokenBucket)
deriving DecidableEq

/- Embeds RateLimiter.check: a missing bucket is created with a full
initial allowance, then bucket.allow(1.0) runs on the stored bucket. -/
def RateLimiter.check (rl : RateLimiter) (key : List Char) (now : ℚ) :
    Bool × RateLimiter :=
  match dictGet rl.buckets key with
  | some b =>
    let r := b.allow now 1
    (r.1, { rl with buckets := dictInsert rl.buckets key r.2 })
  | none =>
    let b : TokenBucket :=
      { capacity := rl.capacity, refill_rate_per_sec := rl.refill,
        tokens := rl.capacity, last_refill := now }
    let r := b.allow now 1
    (r.1, { rl with buckets := dictInsert rl.buckets key r.2 })

/- Iterates `check` on one key, returning the list of verdicts. -/
def rateLimiterRun (rl : RateLimiter) (key : List Char) (now : ℚ) :
    Nat → List Bool × RateLimiter
  | 0 => ([], rl)
  | n + 1 =>
    let r := rl.check key now
    let rest := rateLimiterRun r.2 key now n
    (r.1 :: rest.1, rest.2)

-- ==========================================================
-- AuthConfig and service results
-- ==========================================================

structure AuthConfig where
  access_token_ttl : ℚ
  refresh_token_ttl : ℚ
  min_login_delay_ms : ℚ
  rotate_refresh_on_use : Bool
  signing_key : List Nat
deriving DecidableEq

/- The dataclass defaults: 15 min access TTL, 7 day refresh TTL, 120 ms
minimum response delay, rotation enabled. -/
def defaultConfig (key : List Nat) : AuthConfig :=
  { access_token_ttl := 900, refresh_token_ttl := 604800, min_login_delay_ms := 120,
    rotate_refresh_on_use := true, signing_key := key }

structure LoginResult where
  access_token : List Char
  refresh_token : List Char
  user_id : Nat
  username : List Char
  roles : List (List Char)
  expires_at : Option ℚ
deriving DecidableEq

/- Embeds AuthService._ensure_min_delay as its effect on elapsed wall time:
given the work time in milliseconds at the exit point, the result is the
total elapsed time when the call returns (sleep happens only when more
than 1 ms remains). -/
def AuthService.ensure_min_delay (cfg : AuthConfig) (elapsed_ms : ℚ) : ℚ :=
  if cfg.min_login_delay_ms - elapsed_ms > 1 then cfg.min_login_delay_ms else elapsed_ms

/- Embeds int(x) on the nonnegative timestamps the service produces. -/
def pyInt (q : ℚ) : Int := ⌊q⌋

-- ==========================================================
-- Token issuance
-- ==========================================================

/- Embeds AuthService._issue_access_token; returns the encoded token
string (the source returns only the string, not the claims). -/
def AuthService.issue_access_token (tj : AccessTokenClaims → List Nat)
    (hmacF : List Nat → List Nat → List Nat) (entropy : Nat → List Nat)
    (cfg : AuthConfig) (clockNow : ℚ) (u : User) : List Char :=
  let iat := pyInt clockNow
  let exp := pyInt (clockNow + cfg.access_token_ttl)
  let token_id := b64enc (entropy 12)
  let claims : AccessTokenClaims :=
    { sub := u.username, iat := iat, exp := exp,
      roles := sortStrs u.roles, permissions := sortStrs u.all_permissions,
      token_id := token_id, user_id := some u.id, username := some u.username }
  TokenCodec.encode tj hmacF cfg.signing_key claims

/- Compact JSON of the refresh payload:
json.dumps({"rid": token_id, "exp": int_expiry}, separators=(",", ":")).
The rid is base64url output, so no JSON string escaping can trigger. -/
def ridPayloadDumps (rid : List Char) (e : Int) : List Char :=
  ("\x7b\"rid\":\"").toList ++ rid ++ ("\",\"exp\":").toList ++
    (toString e).toList ++ ("\x7d").toList

def dropLit : List Char → List Char → Option (List Char)
  | [], rest => some rest
  | l :: ls, c :: cs => if c = l then dropLit ls cs else none
  | _ :: _, [] => none

def parseStrUntilQuote : List Char → Option (List Char × List Char)
  | [] => none
  | c :: cs =>
    if c = '"' then some ([], cs)
    else
      match parseStrUntilQuote cs with
      | some (s, r) => some (c :: s, r)
      | none => none

def parseDigitsAux : List Char → Nat → Nat × List Char
  | c :: cs, acc =>
    if '0' ≤ c && c ≤ '9' then parseDigitsAux cs (acc * 10 + (c.toNat - 48))
    else (acc, c :: cs)
  | [], acc => (acc, [])

/- Embeds json.loads on the refresh payload followed by the "rid"/"exp"
field accesses, specialised to the exact shape ridPayloadDumps emits;
`none` models the exception path (caught and re-raised as TokenError). -/
def ridPayloadLoads (bs : List Nat) : Option (List Char × Int) :=
  let cs := bs.map Char.ofNat
  match dropLit (("\x7b\"rid\":\"").toList) cs with
  | none => none
  | some r1 =>
    match parseStrUntilQuote r1 with
    | none => none
    | some (rid, r2) =>
      match dropLit ((",\"exp\":").toList) r2 with
      | none => none
      | some r3 =>
        let sgn : Bool × List Char :=
          match r3 with
          | c :: cs2 => if c = '-' then (true, cs2) else (false, r3)
          | [] => (false, [])
        let nr := parseDigitsAux sgn.2 0
        if nr.2 = ("\x7d").toList then
          some (rid, if sgn.1 then -(nr.1 : Int) else (nr.1 : Int))
        else none

/- Embeds AuthService._issue_refresh_token: returns the refresh token
string "r.<base64url(payload)>.<base64url(hmac(payload))>" and the id. -/
def AuthService.issue_refresh_token (hmacF : List Nat → List Nat → List Nat)
    (entropy : Nat → List Nat) (cfg : AuthConfig) (clockNow : ℚ) :
    List Char × List Char :=
  let token_id := b64enc (entropy 18)
  let expiry := clockNow + cfg.refresh_token_ttl
  let payload := ridPayloadDumps token_id (pyInt expiry)
  let sig := b64enc (hmacF cfg.signing_key (asciiBytes payload))
  (('r' :: '.' :: b64enc (asciiBytes payload)) ++ '.' :: sig, token_id)

-- ==========================================================
-- AuthService operations
-- ==========================================================

/- In-place mutation of a user object: the repository indexes all alias the
same object, so a field assignment on a fetched user is visible through
every index even before repo.update runs.  Identity is modelled by the
immutable numeric id. -/
def setUserAllIndexes (r : InMemoryUserRepository) (u : User) : InMemoryUserRepository :=
  { r with
    users := r.users.map (fun kv => if kv.2.id = u.id then (kv.1, u) else kv),
    users_by_id := r.users_by_id.map (fun kv => if kv.2.id = u.id then (kv.1, u) else kv),
    users_by_email := r.users_by_email.map (fun kv => if kv.2.id = u.id then (kv.1, u) else kv) }

deriving instance DecidableEq for Except

structure RegisterOutcome where
  result : Except AuthErr User
  repo : InMemoryUserRepository
  elapsed_ms : ℚ
deriving DecidableEq

/- Embeds AuthService.register_user.  `t_work` is the wall-clock work time
in milliseconds consumed when the exit point is reached; the outcome
records the total elapsed time at return (exceptions propagate without
reaching _ensure_min_delay). -/
def AuthService.register_user (pbkdf2F : List Char → List Char → Nat → List Nat)
    (entropy : Nat → List Nat) (iterations : Nat) (cfg : AuthConfig)
    (repo : InMemoryUserRepository) (clockNow t_work : ℚ)
    (username email password : List Char) (roles : Option (List (List Char))) :
    RegisterOutcome :=
  let uname := norm_username username
  if uname = [] then
    ⟨.error (.authError (("Username cannot be empty").toList)), repo, t_work⟩
  else if !(validate_email email) then
    ⟨.error (.authError (("Invalid email format").toList)), repo, t_work⟩
  else
    match enforce_password_policy password with
    | .error e => ⟨.error e, repo, t_work⟩
    | .ok _ =>
      let pwd_hash := PasswordHasher.hash pbkdf2F entropy iterations password
      let idr := repo.next_id
      let user : User :=
        { id := idr.1, username := uname, email := lowerStr (stripStr email),
          password_hash := pwd_hash,
          roles := (match roles with
                    | some (r :: rs) => dedupStrs (r :: rs)
                    | _ => [("user").toList]),
          permissions := [], created_at := clockNow, last_login := none,
          refresh_tokens := [] }
      match idr.2.add user with
      | .error e => ⟨.error e, idr.2, t_work⟩
      | .ok repo2 => ⟨.ok user, repo2, AuthService.ensure_min_delay cfg t_work⟩

structure LoginOutcome where
  result : Except AuthErr LoginResult
  repo : InMemoryUserRepository
  limiter : RateLimiter
  elapsed_ms : ℚ
deriving DecidableEq

/- Embeds AuthService.login.  Note that the rate-limited exit raises before
any call to _ensure_min_delay, while the other three exits are padded. -/
def AuthService.login (tj : AccessTokenClaims → List Nat)
    (hmacF : List Nat → List Nat → List Nat) (entropy : Nat → List Nat)
    (pbkdf2F : List Char → List Char → Nat → List Nat) (cfg : AuthConfig)
    (repo : InMemoryUserRepository) (limiter : RateLimiter)
    (wallNow clockNow t_work : ℚ) (username password ip : List Char) : LoginOutcome :=
  let key := ("login:").toList ++ norm_username username ++ (":").toList ++ ip
  let chk := limiter.check key wallNow
  if !chk.1 then
    ⟨.error (.invalidCredentials (("Invalid credentials").toList)), repo, chk.2, t_work⟩
  else
    match repo.get username with
    | none =>
      ⟨.error (.invalidCredentials (("Invalid credentials").toList)), repo, chk.2,
        AuthService.ensure_min_delay cfg t_work⟩
    | some user =>
      if !(PasswordHasher.verify pbkdf2F password user.password_hash) then
        ⟨.error (.invalidCredentials (("Invalid credentials").toList)), repo, chk.2,
          AuthService.ensure_min_delay cfg t_work⟩
      else
        let user1 := { user with last_login := some clockNow }
        let jwt := AuthService.issue_access_token tj hmacF entropy cfg clockNow user1
        let rt := AuthService.issue_refresh_token hmacF entropy cfg clockNow
        let user2 := { user1 with
          refresh_tokens :=
            dictInsert user1.refresh_tokens rt.2 (clockNow + cfg.refresh_token_ttl) }
        let repo1 := setUserAllIndexes repo user2
        match repo1.update user2 with
        | .error e => ⟨.error e, repo1, chk.2, t_work⟩
        | .ok repo2 =>
          ⟨.ok { access_token := jwt, refresh_token := rt.1, user_id := user.id,
                 username := user.username, roles := user.roles, expires_at := none },
            repo2, chk.2, AuthService.ensure_min_delay cfg t_work⟩

/- The linear owner search in AuthService.refresh: iterate over the keys of
repo._users and fetch each candidate through repo.get. -/
def findOwnerAux (r : InMemoryUserRepository) (rid : List Char) :
    List (List Char) → Option User
  | [] => none
  | k :: ks =>
    match r.get k with
    | some c =>
      if dictContains c.refresh_tokens rid then some c else findOwnerAux r rid ks
    | none => findOwnerAux r rid ks

def AuthService.findRefreshOwner (r : InMemoryUserRepository) (rid : List Char) :
    Option User :=
  findOwnerAux r rid (dictKeys r.users)

structure RefreshOutcome where
  result : Except AuthErr LoginResult
  repo : InMemoryUserRepository
  elapsed_ms : ℚ
deriving DecidableEq

/- Embeds AuthService.refresh.  Every failure inside the parsing try-block
is caught and re-raised as TokenError("Malformed refresh token").  After
the owner is found and the consumed id popped, the source executes
`jwt, claims = self._issue_access_token(user)`, unpacking the returned
token string; since the token is never 2 characters long this raises
ValueError, which escapes with the pop already applied to the shared user
object.  The branch after a (impossible) successful unpack mirrors the
remaining source lines, ending in the TypeError that the LoginResult
constructor call with a missing roles argument would raise. -/
def AuthService.refresh (tj : AccessTokenClaims → List Nat)
    (hmacF : List Nat → List Nat → List Nat) (entropy : Nat → List Nat)
    (cfg : AuthConfig) (repo : InMemoryUserRepository) (wallNow : Int)
    (clockNow t_work : ℚ) (refresh_token : List Char) : RefreshOutcome :=
  let malformed : RefreshOutcome :=
    ⟨.error (.tokenError (("Malformed refresh token").toList)), repo, t_work⟩
  match splitOnChar '.' refresh_token with
  | [p1, payload_b64, sig] =>
    if p1 ≠ ("r").toList then malformed
    else
      match b64dec (repad payload_b64) with
      | none => malformed
      | some payload_raw =>
        let expected := b64enc (hmacF cfg.signing_key payload_raw)
        if expected ≠ sig then malformed
        else
          match ridPayloadLoads payload_raw with
          | none => malformed
          | some (rid, exp_ts) =>
            if exp_ts < wallNow then
              ⟨.error (.tokenError (("Refresh expired").toList)), repo, t_work⟩
            else
              match AuthService.findRefreshOwner repo rid with
              | none =>
                ⟨.error (.tokenError (("Unknown refresh token").toList)), repo, t_work⟩
              | some user =>
                let user1 :=
                  if cfg.rotate_refresh_on_use then
                    { user with refresh_tokens := dictPop user.refresh_tokens rid }
                  else user
                let repo1 := setUserAllIndexes repo user1
                let token :=
                  AuthService.issue_access_token tj hmacF entropy cfg clockNow user1
                if token.length = 2 then
                  let nr := AuthService.issue_refresh_token hmacF entropy cfg clockNow
                  let user2 := { user1 with
                    refresh_tokens := dictInsert user1.refresh_tokens nr.2 0 }
                  let repo2 := setUserAllIndexes repo1 user2
                  match repo2.update user2 with
                  | .error e => ⟨.error e, repo2, t_work⟩
                  | .ok repo3 =>
                    ⟨.error .typeError, repo3, AuthService.ensure_min_delay cfg t_work⟩
                else ⟨.error .valueError, repo1, t_work⟩
  | _ => malformed


-- ==========================================================
-- Derived notions used to state the claims
-- ==========================================================

def exceptIsOk {ε α : Type} : Except ε α → Bool
  | .ok _ => true
  | .error _ => false

/- The signature segment of a token produced by TokenCodec.encode. -/
def sigSegment (tj : AccessTokenClaims → List Nat)
    (hmacF : List Nat → List Nat → List Nat) (key : List Nat)
    (claims : AccessTokenClaims) : List Char :=
  b64enc (hmacF key (asciiBytes (headerSegment ++ '.' :: b64enc (tj claims))))

/- Repository operations, for stating invariants over arbitrary call
sequences; a failing call raises and leaves the state unchanged. -/
inductive RepoOp where
  | addU (u : User)
  | updateU (u : User)

def applyRepoOp (r : InMemoryUserRepository) : RepoOp → InMemoryUserRepository
  | .addU u => match r.add u with | .ok r2 => r2 | .error _ => r
  | .updateU u => match r.update u with | .ok r2 => r2 | .error _ => r

def applyRepoOps (r : InMemoryUserRepository) (ops : List RepoOp) :
    InMemoryUserRepository :=
  ops.foldl applyRepoOp r

/- Every stored entry is keyed by the normalized username of its user. -/
def usersKeyConsistent (r : InMemoryUserRepository) : Prop :=
  ∀ kv ∈ r.users, kv.1 = norm_username kv.2.username

structure RegInput where
  username : List Char
  email : List Char
  password : List Char
  roles : Option (List (List Char))

/- Runs a sequence of register_user calls and collects the ids of the
successfully registered users, in order. -/
def registerSeqIds (pbkdf2F : List Char → List Char → Nat → List Nat)
    (entropy : Nat → List Nat) (iterations : Nat) (cfg : AuthConfig)
    (clockNow t_work : ℚ) :
    InMemoryUserRepository → List RegInput → List Nat
  | _, [] => []
  | r, i :: is =>
    let o := AuthService.register_user pbkdf2F entropy iterations cfg r clockNow t_work
      i.username i.email i.password i.roles
    match o.result with
    | .ok u => u.id :: registerSeqIds pbkdf2F entropy iterations cfg clockNow t_work o.repo is
    | .error _ => registerSeqIds pbkdf2F entropy iterations cfg clockNow t_work o.repo is

/- The strength formula exactly as the specification words it (length
component weighted 0.6, class-variety component weighted 0.4, flat 0.25
weak-substring penalty), without the clamping the source applies. -/
def spec_strength_score (pw : List Char) : ℚ :=
  0.6 * min ((pw.length : ℚ) / 16) 1 + 0.4 * ((varietyCount pw : ℚ) / 4) -
    (if hasWeakPattern pw then 0.25 else 0)

-- ==========================================================
-- Concrete instantiations of the external primitives, and concrete
-- service states, used by witnesses and counterexamples
-- ==========================================================

def hmacDummy : List Nat → List Nat → List Nat := fun _ _ => [1, 2, 3]

def entropyDummy : Nat → List Nat := fun n => List.replicate n 0

def tjDummy : AccessTokenClaims → List Nat := fun _ => [97]

def pbkdf2Dummy : List Char → List Char → Nat → List Nat :=
  fun pw _ _ => [pw.length % 256]

def sampleClaims : AccessTokenClaims :=
  { sub := ("alice").toList, iat := 0, exp := 100, roles := [("user").toList],
    permissions := [], token_id := ("t1").toList, user_id := some 1,
    username := some (("alice").toList) }

def fjSample : List Nat → Option AccessTokenClaims := fun _ => some sampleClaims

def c1cfg : AuthConfig := defaultConfig []

def c1rid : List Char := b64enc (entropyDummy 18)

def c1payload : List Char := ridPayloadDumps c1rid 604800

def c1tok : List Char :=
  ('r' :: '.' :: b64enc (asciiBytes c1payload)) ++
    '.' :: b64enc (hmacDummy [] (asciiBytes c1payload))

def c1alice : User :=
  { id := 1, username := ("alice").toList, email := ("a@b.io").toList,
    password_hash := ⟨("pbkdf2_sha256").toList, [], 1, []⟩, roles := [("user").toList],
    permissions := [], created_at := 0, last_login := none,
    refresh_tokens := [(c1rid, 0)] }

def c1repo : InMemoryUserRepository :=
  { users := [(("alice").toList, c1alice)], users_by_id := [(1, c1alice)],
    users_by_email := [(("a@b.io").toList, c1alice)], next_user_id := 2 }

/- A limiter whose bucket for the key "login:alice:ip" is empty with zero
refill: the next check on that key is denied. -/
def c2limiter : RateLimiter :=
  { capacity := 5, refill := 0,
    buckets := [((("login:alice:ip").toList),
      { capacity := 5, refill_rate_per_sec := 0, tokens := 0, last_refill := 0 })] }

def c3u1 : User :=
  { id := 1, username := ("alice").toList, email := ("Shared@Example.com").toList,
    password_hash := ⟨("pbkdf2_sha256").toList, [], 1, []⟩, roles := [("user").toList],
    permissions := [], created_at := 0, last_login := none, refresh_tokens := [] }

def c3u2 : User :=
  { id := 2, username := ("bob").toList, email := ("shared@example.COM").toList,
    password_hash := ⟨("pbkdf2_sha256").toList, [], 1, []⟩, roles := [("user").toList],
    permissions := [], created_at := 0, last_login := none, refresh_tokens := [] }

def c8bob : User :=
  { id := 1, username := ("bob").toList, email := ("bob@x.io").toList,
    password_hash := ⟨("pbkdf2_sha256").toList, [], 1, b64enc [6]⟩,
    roles := [("user").toList], permissions := [], created_at := 0,
    last_login := none, refresh_tokens := [] }

def c8fed : User :=
  { id := 2, username := ("carol").toList, email := ("carol@x.io").toList,
    password_hash := ⟨("google_oauth").toList, [], 1, []⟩,
    roles := [("user").toList], permissions := [], created_at := 0,
    last_login := none, refresh_tokens := [] }

def c8repo : InMemoryUserRepository :=
  { users := [(("bob").toList, c8bob), (("carol").toList, c8fed)],
    users_by_id := [(1, c8bob), (2, c8fed)],
    users_by_email := [(("bob@x.io").toList, c8bob), (("carol@x.io").toList, c8fed)],
    next_user_id := 3 }

def c8limiter : RateLimiter := { capacity := 5, refill := 0, buckets := [] }

-- ==========================================================
-- base64 lemmas
-- ==========================================================

theorem b64char_mem (n : Nat) : b64char n ∈ b64alphabet := by
  unfold b64char
  by_cases h : n < b64alphabet.length
  · rw [List.getD_eq_getElem _ _ h]
    exact List.getElem_mem h
  · rw [List.getD_eq_default _ _ (by omega)]
    decide

theorem b64char_ne_dot (n : Nat) : b64char n ≠ '.' := by
  intro h
  have := b64char_mem n
  rw [h] at this
  revert this
  decide

theorem b64char_ne_eq (n : Nat) : b64char n ≠ '=' := by
  intro h
  have := b64char_mem n
  rw [h] at this
  revert this
  decide

theorem b64val_b64char : ∀ n, n < 64 → b64val (b64char n) = some n := by decide

theorem b64enc_no_dot : ∀ (bs : List Nat), '.' ∉ b64enc bs
  | a :: b :: c :: rest => by
    simp only [b64enc, List.mem_cons, not_or]
    refine ⟨?_, ?_, ?_, ?_, b64enc_no_dot rest⟩ <;>
      exact fun h => b64char_ne_dot _ h.symm
  | [a, b] => by
    simp only [b64enc, List.mem_cons, not_or]
    refine ⟨?_, ?_, ?_, ?_⟩ <;> first
      | exact fun h => b64char_ne_dot _ h.symm
      | simp
  | [a] => by
    simp only [b64enc, List.mem_cons, not_or]
    refine ⟨?_, ?_, ?_⟩ <;> first
      | exact fun h => b64char_ne_dot _ h.symm
      | simp
  | [] => by simp [b64enc]

theorem repad_cons4 (c1 c2 c3 c4 : Char) (t : List Char) :
    repad (c1 :: c2 :: c3 :: c4 :: t) = c1 :: c2 :: c3 :: c4 :: repad t := by
  simp only [repad, List.length_cons, List.cons_append]
  have : (4 - (t.length + 1 + 1 + 1 + 1) % 4) % 4 = (4 - t.length % 4) % 4 := by omega
  rw [this]

theorem b64dec_cons4 (v1 v2 v3 v4 : Nat) (h1 : v1 < 64) (h2 : v2 < 64)
    (h3 : v3 < 64) (h4 : v4 < 64) (t : List Char) :
    b64dec (b64char v1 :: b64char v2 :: b64char v3 :: b64char v4 :: t) =
      (b64dec t).map
        (fun bs => (v1 * 4 + v2 / 16) :: (v2 % 16 * 16 + v3 / 4) :: (v3 % 4 * 64 + v4) :: bs) := by
  have e3 : (b64char v3 = '=') = False := by simp [b64char_ne_eq]
  have e4 : (b64char v4 = '=') = False := by simp [b64char_ne_eq]
  cases ht : b64dec t <;>
    simp [b64dec, b64val_b64char _ h1, b64val_b64char _ h2, b64val_b64char _ h3,
      b64val_b64char _ h4, e3, e4, ht]

theorem b64dec_pad2 (v1 v2 : Nat) (h1 : v1 < 64) (h2 : v2 < 64) :
    b64dec [b64char v1, b64char v2, '=', '='] = some [v1 * 4 + v2 / 16] := by
  simp [b64dec, b64val_b64char _ h1, b64val_b64char _ h2]

theorem b64dec_pad1 (v1 v2 v3 : Nat) (h1 : v1 < 64) (h2 : v2 < 64) (h3 : v3 < 64) :
    b64dec [b64char v1, b64char v2, b64char v3, '='] =
      some [v1 * 4 + v2 / 16, v2 % 16 * 16 + v3 / 4] := by
  have e3 : (b64char v3 = '=') = False := by simp [b64char_ne_eq]
  simp [b64dec, b64val_b64char _ h1, b64val_b64char _ h2, b64val_b64char _ h3, e3]

theorem b64_roundtrip : ∀ (bs : List Nat), validBytes bs → b64dec (repad (b64enc bs)) = some bs
  | a :: b :: c :: rest => by
    intro hv
    have ha : a < 256 := hv a (by simp)
    have hb : b < 256 := hv b (by simp)
    have hc : c < 256 := hv c (by simp)
    have ih := b64_roundtrip rest (fun x hx => hv x (by simp [hx]))
    have henc : b64enc (a :: b :: c :: rest) =
        b64char (a / 4) :: b64char (a % 4 * 16 + b / 16) ::
        b64char (b % 16 * 4 + c / 64) :: b64char (c % 64) :: b64enc rest := rfl
    rw [henc, repad_cons4,
      b64dec_cons4 _ _ _ _ (by omega) (by omega) (by omega) (by omega), ih]
    have e1 : a / 4 * 4 + (a % 4 * 16 + b / 16) / 16 = a := by omega
    have e2 : (a % 4 * 16 + b / 16) % 16 * 16 + (b % 16 * 4 + c / 64) / 4 = b := by omega
    have e3 : (b % 16 * 4 + c / 64) % 4 * 64 + c % 64 = c := by omega
    simp [e1, e2, e3]
  | [a, b] => by
    intro hv
    have ha : a < 256 := hv a (by simp)
    have hb : b < 256 := hv b (by simp)
    have henc : b64enc [a, b] =
        [b64char (a / 4), b64char (a % 4 * 16 + b / 16), b64char (b % 16 * 4)] := rfl
    have hpad : repad [b64char (a / 4), b64char (a % 4 * 16 + b / 16), b64char (b % 16 * 4)] =
        [b64char (a / 4), b64char (a % 4 * 16 + b / 16), b64char (b % 16 * 4), '='] := rfl
    rw [henc, hpad, b64dec_pad1 _ _ _ (by omega) (by omega) (by omega)]
    have e1 : a / 4 * 4 + (a % 4 * 16 + b / 16) / 16 = a := by omega
    have e2 : (a % 4 * 16 + b / 16) % 16 * 16 + b % 16 * 4 / 4 = b := by omega
    rw [e1, e2]
  | [a] => by
    intro hv
    have ha : a < 256 := hv a (by simp)
    have henc : b64enc [a] = [b64char (a / 4), b64char (a % 4 * 16)] := rfl
    have hpad : repad [b64char (a / 4), b64char (a % 4 * 16)] =
        [b64char (a / 4), b64char (a % 4 * 16), '=', '='] := rfl
    rw [henc, hpad, b64dec_pad2 _ _ (by omega) (by omega)]
    have e1 : a / 4 * 4 + a % 4 * 16 / 16 = a := by omega
    rw [e1]
  | [] => by intro _; simp [b64enc, repad, b64dec]

theorem b64enc_injective (x y : List Nat) (hx : validBytes x) (hy : validBytes y)
    (h : b64enc x = b64enc y) : x = y := by
  have hx' := b64_roundtrip x hx
  have hy' := b64_roundtrip y hy
  rw [h, hy'] at hx'
  exact (Option.some_injective _ hx').symm

-- ==========================================================
-- splitOnChar lemmas
-- ==========================================================

theorem splitOnChar_no_sep (sep : Char) :
    ∀ (s : List Char), sep ∉ s → splitOnChar sep s = [s]
  | [], _ => rfl
  | c :: rest, h => by
    have hrest : sep ∉ rest := fun hm => h (List.mem_cons_of_mem _ hm)
    have hc : c ≠ sep := fun he => h (he ▸ List.mem_cons_self _ _)
    simp [splitOnChar, splitOnChar_no_sep sep rest hrest, hc]

theorem splitOnChar_append_sep (sep : Char) :
    ∀ (a b : List Char), sep ∉ a →
      splitOnChar sep (a ++ sep :: b) = a :: splitOnChar sep b
  | [], b, _ => by
    cases hs : splitOnChar sep b with
    | nil => simp [splitOnChar, hs]
    | cons s ss => simp [splitOnChar, hs]
  | c :: rest, b, h => by
    have hrest : sep ∉ rest := fun hm => h (List.mem_cons_of_mem _ hm)
    have hc : c ≠ sep := fun he => h (he ▸ List.mem_cons_self _ _)
    have ih := splitOnChar_append_sep sep rest b hrest
    simp only [List.cons_append, splitOnChar, if_neg hc, List.append_eq]
    rw [ih]

theorem splitOnChar_length (sep : Char) :
    ∀ (s : List Char), (splitOnChar sep s).length = s.count sep + 1
  | [] => by simp [splitOnChar]
  | c :: rest => by
    have ih := splitOnChar_length sep rest
    cases hs : splitOnChar sep rest with
    | nil => rw [hs] at ih; simp at ih
    | cons s ss =>
      rw [hs] at ih
      simp only [List.length_cons] at ih
      by_cases hc : c = sep
      · subst hc
        simp only [splitOnChar, hs, if_pos rfl, List.length_cons, List.count_cons]
        simp
        omega
      · simp only [splitOnChar, hs, if_neg hc, List.length_cons, List.count_cons]
        simp [hc]
        omega
-- ==========================================================
-- Dictionary lemmas
-- ==========================================================

theorem dictGet_mem {α β : Type} [DecidableEq α] :
    ∀ (l : List (α × β)) (k : α) (v : β), dictGet l k = some v → (k, v) ∈ l
  | [], _, _, h => by simp [dictGet] at h
  | (k', v') :: rest, k, v, h => by
    by_cases he : k' = k
    · subst he
      simp [dictGet] at h
      simp [h]
    · simp only [dictGet, if_neg he] at h
      exact List.mem_cons_of_mem _ (dictGet_mem rest k v h)

theorem dictContains_iff_mem {α β : Type} [DecidableEq α] :
    ∀ (l : List (α × β)) (k : α), dictContains l k = true ↔ k ∈ l.map Prod.fst
  | [], k => by simp [dictContains, dictGet]
  | (k', v') :: rest, k => by
    by_cases he : k' = k
    · subst he
      simp [dictContains, dictGet]
    · simp only [dictContains, dictGet, if_neg he, List.map_cons, List.mem_cons]
      rw [← dictContains]
      rw [dictContains_iff_mem rest k]
      simp [Ne.symm he]

theorem dictInsert_keys_of_contains {α β : Type} [DecidableEq α] :
    ∀ (l : List (α × β)) (k : α) (v : β), dictContains l k = true →
      (dictInsert l k v).map Prod.fst = l.map Prod.fst
  | [], k, v, h => by simp [dictContains, dictGet] at h
  | (k', v') :: rest, k, v, h => by
    by_cases he : k' = k
    · subst he
      simp [dictInsert]
    · simp only [dictContains, dictGet, if_neg he] at h
      rw [← dictContains] at h
      simp only [dictInsert, if_neg he, List.map_cons]
      rw [dictInsert_keys_of_contains rest k v h]

theorem dictInsert_keys_of_not_contains {α β : Type} [DecidableEq α] :
    ∀ (l : List (α × β)) (k : α) (v : β), dictContains l k = false →
      (dictInsert l k v).map Prod.fst = l.map Prod.fst ++ [k]
  | [], k, v, _ => by simp [dictInsert]
  | (k', v') :: rest, k, v, h => by
    by_cases he : k' = k
    · subst he
      simp [dictContains, dictGet] at h
    · simp only [dictContains, dictGet, if_neg he] at h
      rw [← dictContains] at h
      simp only [dictInsert, if_neg he, List.map_cons, List.cons_append]
      rw [dictInsert_keys_of_not_contains rest k v h]

theorem dictInsert_mem_or {α β : Type} [DecidableEq α] :
    ∀ (l : List (α × β)) (k : α) (v : β) (kv : α × β),
      kv ∈ dictInsert l k v → kv ∈ l ∨ kv = (k, v)
  | [], k, v, kv, h => by
    simp [dictInsert] at h
    exact Or.inr h
  | (k', v') :: rest, k, v, kv, h => by
    by_cases he : k' = k
    · subst he
      simp only [dictInsert, if_true, eq_self_iff_true, List.mem_cons] at h
      rcases h with h | h
      · exact Or.inr h
      · exact Or.inl (List.mem_cons_of_mem _ h)
    · simp only [dictInsert, if_neg he, List.mem_cons] at h
      rcases h with h | h
      · exact Or.inl (by simp [h])
      · rcases dictInsert_mem_or rest k v kv h with h2 | h2
        · exact Or.inl (List.mem_cons_of_mem _ h2)
        · exact Or.inr h2

-- ==========================================================
-- Username normalization lemmas
-- ==========================================================

theorem charOfNat_toNat (n : Nat) (h : n < 0xd800) : (Char.ofNat n).toNat = n := by
  have hv : n.isValidChar := Or.inl h
  simp [Char.ofNat, hv, Char.ofNatAux, Char.toNat, UInt32.toNat]

theorem toLower_idem (c : Char) : c.toLower.toLower = c.toLower := by
  simp only [Char.toLower]
  by_cases h : c.toNat ≥ 65 ∧ c.toNat ≤ 90
  · rw [if_pos h]
    have h2 : (Char.ofNat (c.toNat + 32)).toNat = c.toNat + 32 :=
      charOfNat_toNat _ (by omega)
    rw [if_neg (by rw [h2]; omega)]
  · rw [if_neg h, if_neg h]

theorem mem_norm_username (c : Char) (s : List Char) (h : c ∈ norm_username s) :
    pyIsSpace c = false ∧ c.toLower = c := by
  unfold norm_username at h
  rw [List.mem_filter] at h
  obtain ⟨hm, hsp⟩ := h
  refine ⟨by simpa using hsp, ?_⟩
  unfold lowerStr at hm
  rw [List.mem_map] at hm
  obtain ⟨d, _, hd⟩ := hm
  rw [← hd]
  exact toLower_idem d

theorem dropWhile_eq_self_of_none {p : Char → Bool} :
    ∀ (l : List Char), (∀ c ∈ l, p c = false) → l.dropWhile p = l
  | [], _ => rfl
  | c :: rest, h => by
    have := h c (by simp)
    simp [List.dropWhile, this]

theorem norm_username_idem (s : List Char) :
    norm_username (norm_username s) = norm_username s := by
  have hsp : ∀ c ∈ norm_username s, pyIsSpace c = false :=
    fun c hc => (mem_norm_username c s hc).1
  have hstrip : stripStr (norm_username s) = norm_username s := by
    unfold stripStr
    rw [dropWhile_eq_self_of_none _ hsp]
    rw [dropWhile_eq_self_of_none _ (fun c hc => hsp c (by simpa using hc))]
    simp
  have hlower : lowerStr (norm_username s) = norm_username s := by
    unfold lowerStr
    apply List.map_congr_left ?_ |>.trans (List.map_id _)
    exact fun c hc => (mem_norm_username c s hc).2
  conv_lhs => rw [norm_username, hstrip, hlower]
  rw [List.filter_eq_self.mpr (fun c hc => by simp [hsp c hc])]

-- ==========================================================
-- ensure_min_delay and setUserAllIndexes lemmas
-- ==========================================================

theorem ensure_min_delay_ge (cfg : AuthConfig) (t : ℚ) :
    AuthService.ensure_min_delay cfg t ≥ cfg.min_login_delay_ms - 1 := by
  unfold AuthService.ensure_min_delay
  split <;> linarith

theorem setUser_keys (r : InMemoryUserRepository) (u : User) :
    (setUserAllIndexes r u).users.map Prod.fst = r.users.map Prod.fst := by
  simp only [setUserAllIndexes, List.map_map]
  apply List.map_congr_left
  intro kv _
  simp only [Function.comp_apply]
  split <;> rfl

-- ==========================================================
-- Token codec helper lemmas
-- ==========================================================

theorem split3_of_no_dot (h p s : List Char) (hh : '.' ∉ h) (hp : '.' ∉ p)
    (hs : '.' ∉ s) :
    splitOnChar '.' (h ++ '.' :: p ++ '.' :: s) = [h, p, s] := by
  have hassoc : h ++ '.' :: p ++ '.' :: s = h ++ '.' :: (p ++ '.' :: s) := by simp
  rw [hassoc]
  rw [splitOnChar_append_sep '.' h _ hh]
  rw [splitOnChar_append_sep '.' p _ hp]
  rw [splitOnChar_no_sep '.' s hs]

theorem decode_of_parts (fj : List Nat → Option AccessTokenClaims)
    (hmacF : List Nat → List Nat → List Nat) (key : List Nat)
    (h p s : List Char) (hh : '.' ∉ h) (hp : '.' ∉ p) (hs : '.' ∉ s) :
    TokenCodec.decode fj hmacF key (h ++ '.' :: p ++ '.' :: s) =
      (if b64enc (hmacF key (asciiBytes (h ++ '.' :: p))) = s then
        (match b64dec (repad p) with
         | some data =>
           (match fj data with
            | some claims => .ok claims
            | none => .error .valueError)
         | none => .error .valueError)
      else .error (.tokenError (("Invalid signature").toList))) := by
  unfold TokenCodec.decode
  rw [split3_of_no_dot h p s hh hp hs]

theorem decode_malformed (fj : List Nat → Option AccessTokenClaims)
    (hmacF : List Nat → List Nat → List Nat) (key : List Nat) (t : List Char)
    (hlen : (splitOnChar '.' t).length ≠ 3) :
    TokenCodec.decode fj hmacF key t =
      .error (.tokenError (("Malformed token").toList)) := by
  unfold TokenCodec.decode
  rcases hsp : splitOnChar '.' t with _ | ⟨a, _ | ⟨b, _ | ⟨c, _ | ⟨d, tl⟩⟩⟩⟩ <;>
    first
      | rfl
      | (rw [hsp] at hlen; simp at hlen)

theorem encode_parts (tj : AccessTokenClaims → List Nat)
    (hmacF : List Nat → List Nat → List Nat) (key : List Nat)
    (c : AccessTokenClaims) :
    TokenCodec.encode tj hmacF key c =
      headerSegment ++ '.' :: b64enc (tj c) ++ '.' :: sigSegment tj hmacF key c := rfl

theorem header_no_dot : '.' ∉ headerSegment := b64enc_no_dot _

theorem sigSegment_no_dot (tj : AccessTokenClaims → List Nat)
    (hmacF : List Nat → List Nat → List Nat) (key : List Nat)
    (c : AccessTokenClaims) : '.' ∉ sigSegment tj hmacF key c := b64enc_no_dot _

theorem decode_encode_ok (tj : AccessTokenClaims → List Nat)
    (fj : List Nat → Option AccessTokenClaims)
    (hmacF : List Nat → List Nat → List Nat) (key : List Nat)
    (c : AccessTokenClaims) (hv : validBytes (tj c)) (hfj : fj (tj c) = some c) :
    TokenCodec.decode fj hmacF key (TokenCodec.encode tj hmacF key c) = .ok c := by
  rw [encode_parts]
  rw [decode_of_parts fj hmacF key headerSegment (b64enc (tj c))
    (sigSegment tj hmacF key c) header_no_dot (b64enc_no_dot _)
    (sigSegment_no_dot tj hmacF key c)]
  rw [if_pos (show b64enc (hmacF key (asciiBytes (headerSegment ++ '.' :: b64enc (tj c)))) =
    sigSegment tj hmacF key c from rfl)]
  rw [b64_roundtrip _ hv]
  simp [hfj]

/-- Claim C4: for every AccessTokenClaims value, decode of encode returns the
original claims (given the JSON library round-trip on the payload bytes);
altering any byte of the signature segment of an encoded token makes decode
fail with a TokenError; and any input whose dot count is not two (so it does
not split into exactly three segments) fails with TokenError("Malformed
token"). -/
theorem claim_C4_codec_roundtrip :
    (∀ (tj : AccessTokenClaims → List Nat) (fj : List Nat → Option AccessTokenClaims)
        (hmacF : List Nat → List Nat → List Nat) (key : List Nat)
        (c : AccessTokenClaims),
      validBytes (tj c) → fj (tj c) = some c →
      TokenCodec.decode fj hmacF key (TokenCodec.encode tj hmacF key c) = .ok c) ∧
    (∀ (tj : AccessTokenClaims → List Nat) (fj : List Nat → Option AccessTokenClaims)
        (hmacF : List Nat → List Nat → List Nat) (key : List Nat)
        (c : AccessTokenClaims) (i : Nat) (ch : Char)
        (hi : i < (sigSegment tj hmacF key c).length),
      ch ≠ (sigSegment tj hmacF key c).get ⟨i, hi⟩ →
      ∃ msg, TokenCodec.decode fj hmacF key
          (headerSegment ++ '.' :: b64enc (tj c) ++ '.' ::
            (sigSegment tj hmacF key c).set i ch) =
        .error (.tokenError msg)) ∧
    (∀ (fj : List Nat → Option AccessTokenClaims)
        (hmacF : List Nat → List Nat → List Nat) (key : List Nat) (t : List Char),
      t.count '.' ≠ 2 →
      TokenCodec.decode fj hmacF key t =
        .error (.tokenError (("Malformed token").toList))) := by
  refine ⟨fun tj fj hmacF key c hv hfj => decode_encode_ok tj fj hmacF key c hv hfj,
    ?_, ?_⟩
  · intro tj fj hmacF key c i ch hi hne
    by_cases hdot : ch = '.'
    · subst hdot
      refine ⟨("Malformed token").toList, ?_⟩
      apply decode_malformed
      rw [splitOnChar_length]
      have hlen : i < ((sigSegment tj hmacF key c).set i '.').length := by
        simpa using hi
      have hmem : '.' ∈ (sigSegment tj hmacF key c).set i '.' := by
        have hm := List.getElem_mem hlen
        rwa [List.getElem_set_self (by simpa using hi)] at hm
      have hc1 : 0 < ((sigSegment tj hmacF key c).set i '.').count '.' :=
        List.count_pos_iff.mpr hmem
      have hc2 : (headerSegment).count '.' = 0 :=
        List.count_eq_zero.mpr header_no_dot
      have hc3 : (b64enc (tj c)).count '.' = 0 :=
        List.count_eq_zero.mpr (b64enc_no_dot _)
      simp [List.count_append, List.count_cons, hc2, hc3]
      omega
    · refine ⟨("Invalid signature").toList, ?_⟩
      have hs' : '.' ∉ (sigSegment tj hmacF key c).set i ch := by
        intro hm
        rcases List.mem_or_eq_of_mem_set hm with hm2 | hm2
        · exact b64enc_no_dot _ hm2
        · exact hdot hm2.symm
      rw [decode_of_parts fj hmacF key headerSegment (b64enc (tj c))
        ((sigSegment tj hmacF key c).set i ch) header_no_dot (b64enc_no_dot _) hs']
      rw [if_neg ?_]
      have heq0 : b64enc (hmacF key (asciiBytes (headerSegment ++ '.' :: b64enc (tj c)))) =
          sigSegment tj hmacF key c := rfl
      rw [heq0]
      intro heq
      have h2 := List.get_of_eq heq ⟨i, hi⟩
      rw [List.get_eq_getElem, List.get_eq_getElem,
        List.getElem_set_self (by simpa using hi)] at h2
      exact hne (by rw [List.get_eq_getElem]; exact h2.symm)
  · intro fj hmacF key t hcount
    apply decode_malformed
    rw [splitOnChar_length]
    omega

/-- Witness for C4 at concrete primitives: a round-trip through the codec on
a sample claims record, a one-byte tampering of its signature segment
rejected with a TokenError, and a two-segment input rejected as malformed. -/
theorem claim_C4_codec_roundtrip_witness :
    TokenCodec.decode fjSample hmacDummy [] (TokenCodec.encode tjDummy hmacDummy [] sampleClaims) =
        .ok sampleClaims ∧
    (∃ msg, TokenCodec.decode fjSample hmacDummy []
        (headerSegment ++ '.' :: b64enc (tjDummy sampleClaims) ++ '.' ::
          (sigSegment tjDummy hmacDummy [] sampleClaims).set 0 'z') =
      .error (.tokenError msg)) ∧
    TokenCodec.decode fjSample hmacDummy [] (("ab").toList) =
      .error (.tokenError (("Malformed token").toList)) := by
  refine ⟨claim_C4_codec_roundtrip.1 tjDummy fjSample hmacDummy [] sampleClaims
      (by decide) rfl,
    claim_C4_codec_roundtrip.2.1 tjDummy fjSample hmacDummy [] sampleClaims 0 'z'
      (by decide) (by decide),
    claim_C4_codec_roundtrip.2.2 fjSample hmacDummy [] (("ab").toList) (by decide)⟩

/-- Claim C9: decode inspects only the segment count and the HMAC signature
over header.payload, never the header content: any token whose header
segment differs from the fixed header but whose signature over
header.payload is valid under the key decodes successfully to the embedded
claims. -/
theorem claim_C9_header_ignored :
    ∀ (tj : AccessTokenClaims → List Nat) (fj : List Nat → Option AccessTokenClaims)
      (hmacF : List Nat → List Nat → List Nat) (key : List Nat)
      (hdr : List Char) (c : AccessTokenClaims),
      '.' ∉ hdr → hdr ≠ headerSegment → validBytes (tj c) → fj (tj c) = some c →
      TokenCodec.decode fj hmacF key
          (hdr ++ '.' :: b64enc (tj c) ++ '.' ::
            b64enc (hmacF key (asciiBytes (hdr ++ '.' :: b64enc (tj c))))) = .ok c := by
  intro tj fj hmacF key hdr c hh _ hv hfj
  rw [decode_of_parts fj hmacF key hdr (b64enc (tj c))
    (b64enc (hmacF key (asciiBytes (hdr ++ '.' :: b64enc (tj c)))))
    hh (b64enc_no_dot _) (b64enc_no_dot _)]
  rw [if_pos rfl]
  rw [b64_roundtrip _ hv]
  simp [hfj]

/-- Witness for C9: a token carrying the header segment "zz" instead of the
fixed codec header still decodes to the embedded sample claims. -/
theorem claim_C9_header_ignored_witness :
    TokenCodec.decode fjSample hmacDummy []
        ((("zz").toList) ++ '.' :: b64enc (tjDummy sampleClaims) ++ '.' ::
          b64enc (hmacDummy [] (asciiBytes ((("zz").toList) ++ '.' :: b64enc (tjDummy sampleClaims))))) =
      .ok sampleClaims :=
  claim_C9_header_ignored tjDummy fjSample hmacDummy [] (("zz").toList) sampleClaims
    (by decide) (by decide) (by decide) rfl

-- ==========================================================
-- Password hasher: claim C5
-- ==========================================================

/-- Claim C5: verify(p, hash(p)) is true for every password; verify(q,
hash(p)) is false (with no exception — the embedding is a total Bool
function) whenever the key derived for q differs from the one derived for
p; and any credential whose algorithm tag is the federated-identity
sentinel "google_oauth" fails verification for every input password,
including the empty one. -/
theorem claim_C5_hasher :
    (∀ (pbkdf2F : List Char → List Char → Nat → List Nat)
        (entropy : Nat → List Nat) (iters : Nat) (p : List Char),
      PasswordHasher.verify pbkdf2F p (PasswordHasher.hash pbkdf2F entropy iters p) = true) ∧
    (∀ (pbkdf2F : List Char → List Char → Nat → List Nat)
        (entropy : Nat → List Nat) (iters : Nat) (p q : List Char),
      validBytes (pbkdf2F p (b64enc (entropy 16)) iters) →
      validBytes (pbkdf2F q (b64enc (entropy 16)) iters) →
      pbkdf2F q (b64enc (entropy 16)) iters ≠ pbkdf2F p (b64enc (entropy 16)) iters →
      PasswordHasher.verify pbkdf2F q (PasswordHasher.hash pbkdf2F entropy iters p) = false) ∧
    (∀ (pbkdf2F : List Char → List Char → Nat → List Nat)
        (pw : List Char) (cred : PasswordHash),
      cred.algorithm = ("google_oauth").toList →
      PasswordHasher.verify pbkdf2F pw cred = false) := by
  refine ⟨?_, ?_, ?_⟩
  · intro pbkdf2F entropy iters p
    simp [PasswordHasher.verify, PasswordHasher.hash]
  · intro pbkdf2F entropy iters p q hvp hvq hne
    simp only [PasswordHasher.verify, PasswordHasher.hash]
    rw [if_neg (by decide)]
    simp only [decide_eq_false_iff_not]
    intro heq
    exact hne (b64enc_injective _ _ hvq hvp heq)
  · intro pbkdf2F pw cred halg
    simp [PasswordHasher.verify, halg]

/-- Witness for C5 at a concrete derivation function: correct password
verifies, a password with a different derived key fails, and a
google_oauth credential rejects even the empty password. -/
theorem claim_C5_hasher_witness :
    PasswordHasher.verify pbkdf2Dummy (("aa").toList)
        (PasswordHasher.hash pbkdf2Dummy entropyDummy 1 (("aa").toList)) = true ∧
    PasswordHasher.verify pbkdf2Dummy (("bbb").toList)
        (PasswordHasher.hash pbkdf2Dummy entropyDummy 1 (("aa").toList)) = false ∧
    PasswordHasher.verify pbkdf2Dummy []
        ⟨("google_oauth").toList, [], 1, []⟩ = false := by
  refine ⟨claim_C5_hasher.1 pbkdf2Dummy entropyDummy 1 (("aa").toList),
    claim_C5_hasher.2.1 pbkdf2Dummy entropyDummy 1 (("aa").toList) (("bbb").toList)
      (by decide) (by decide) (by decide),
    claim_C5_hasher.2.2 pbkdf2Dummy [] ⟨("google_oauth").toList, [], 1, []⟩ rfl⟩

-- ==========================================================
-- Password policy: claim C6
-- ==========================================================

theorem estimate_lt_of_spec_lt (pw : List Char) (h : spec_strength_score pw < 0.55) :
    estimate_password_strength pw < 0.55 := by
  unfold estimate_password_strength
  unfold spec_strength_score at h
  apply max_lt (by norm_num)
  calc min 1 (0.6 * min ((pw.length : ℚ) / 16) 1 + 0.4 * ((varietyCount pw : ℚ) / 4) -
        (if hasWeakPattern pw then 0.25 else 0))
      ≤ 0.6 * min ((pw.length : ℚ) / 16) 1 + 0.4 * ((varietyCount pw : ℚ) / 4) -
        (if hasWeakPattern pw then 0.25 else 0) := min_le_right _ _
    _ < 0.55 := h

theorem enforce_strong_pw_ok :
    enforce_password_policy (("Sup3rStr0ng!PW").toList) = .ok () := by
  unfold enforce_password_policy
  rw [if_neg (by decide)]
  rw [if_neg]
  unfold estimate_password_strength
  have hv : varietyCount (("Sup3rStr0ng!PW").toList) = 4 := by decide
  have hw : hasWeakPattern (("Sup3rStr0ng!PW").toList) = false := by decide
  rw [hv, hw]
  norm_num

/-- Claim C6: every password shorter than 10 characters is rejected with
PasswordPolicyError; every password of length at least 10 whose strength
score by the specification formula (0.6·min(len/16,1) + 0.4·classes/4 −
0.25 weak-substring penalty) is below 0.55 is rejected with
PasswordPolicyError; and "Sup3rStr0ng!PW" passes. -/
theorem claim_C6_policy :
    (∀ pw : List Char, pw.length < 10 →
      ∃ msg, enforce_password_policy pw = .error (.passwordPolicyError msg)) ∧
    (∀ pw : List Char, 10 ≤ pw.length → spec_strength_score pw < 0.55 →
      ∃ msg, enforce_password_policy pw = .error (.passwordPolicyError msg)) ∧
    enforce_password_policy (("Sup3rStr0ng!PW").toList) = .ok () := by
  refine ⟨?_, ?_, enforce_strong_pw_ok⟩
  · intro pw hlen
    refine ⟨("Password too short (min 10).").toList, ?_⟩
    unfold enforce_password_policy
    rw [if_pos hlen]
  · intro pw hlen hscore
    refine ⟨("Password too weak; include length & variety.").toList, ?_⟩
    unfold enforce_password_policy
    rw [if_neg (by omega)]
    rw [if_pos (estimate_lt_of_spec_lt pw hscore)]

/-- Witness for C6: "short" is rejected for length, the ten-character
all-lowercase "zzzzzzzzzz" (specification score 0.475) is rejected for
weakness, and "Sup3rStr0ng!PW" passes. -/
theorem claim_C6_policy_witness :
    (∃ msg, enforce_password_policy (("short").toList) =
      .error (.passwordPolicyError msg)) ∧
    (∃ msg, enforce_password_policy (("zzzzzzzzzz").toList) =
      .error (.passwordPolicyError msg)) ∧
    enforce_password_policy (("Sup3rStr0ng!PW").toList) = .ok () := by
  refine ⟨claim_C6_policy.1 (("short").toList) (by decide),
    claim_C6_policy.2.1 (("zzzzzzzzzz").toList) (by decide) ?_,
    claim_C6_policy.2.2⟩
  have hv : varietyCount (("zzzzzzzzzz").toList) = 1 := by decide
  have hw : hasWeakPattern (("zzzzzzzzzz").toList) = false := by decide
  unfold spec_strength_score
  rw [hv, hw]
  norm_num

-- ==========================================================
-- Rate limiter: claim C7
-- ==========================================================

/-- Claim C7: a key's bucket is created on first check with a full allowance
of capacity tokens and allow runs on it; allow refills lazily to
min(capacity, tokens + elapsed·rate), admits by consuming one token when at
least one is available and denies without consuming otherwise; with
capacity 5 and zero refill, six checks on one key at the same instant give
five admissions then a denial; and a further check is admitted once the
elapsed time times the refill rate reaches one token (capacity at least
one, nonnegative balance). -/
theorem claim_C7_rate_limiter :
    (∀ (rl : RateLimiter) (key : List Char) (now : ℚ),
      dictGet rl.buckets key = none →
      rl.check key now =
        (let b : TokenBucket :=
          { capacity := rl.capacity, refill_rate_per_sec := rl.refill,
            tokens := rl.capacity, last_refill := now }
         let r := b.allow now 1
         (r.1, { rl with buckets := dictInsert rl.buckets key r.2 }))) ∧
    (∀ (b : TokenBucket) (now : ℚ),
      (1 ≤ min b.capacity (b.tokens + (now - b.last_refill) * b.refill_rate_per_sec) →
        b.allow now 1 =
          (true, { b with
            tokens := min b.capacity (b.tokens + (now - b.last_refill) * b.refill_rate_per_sec) - 1,
            last_refill := now })) ∧
      (min b.capacity (b.tokens + (now - b.last_refill) * b.refill_rate_per_sec) < 1 →
        b.allow now 1 =
          (false, { b with
            tokens := min b.capacity (b.tokens + (now - b.last_refill) * b.refill_rate_per_sec),
            last_refill := now }))) ∧
    (rateLimiterRun { capacity := 5, refill := 0, buckets := [] } (("k").toList) 0 6).1 =
      [true, true, true, true, true, false] ∧
    (∀ (b : TokenBucket) (now : ℚ),
      0 ≤ b.tokens → 1 ≤ b.capacity →
      1 ≤ (now - b.last_refill) * b.refill_rate_per_sec →
      (b.allow now 1).1 = true) := by
  refine ⟨?_, ?_, ?_, ?_⟩
  · intro rl key now hmiss
    unfold RateLimiter.check
    rw [hmiss]
  · intro b now
    constructor
    · intro hge
      unfold TokenBucket.allow
      rw [if_pos hge]
    · intro hlt
      unfold TokenBucket.allow
      rw [if_neg (by linarith)]
  · simp only [rateLimiterRun, RateLimiter.check, TokenBucket.allow, dictGet, dictInsert]
    norm_num
  · intro b now h0 hcap hrate
    unfold TokenBucket.allow
    rw [if_pos ?_]
    have h1 : (1 : ℚ) ≤ b.tokens + (now - b.last_refill) * b.refill_rate_per_sec := by
      linarith
    exact le_min hcap h1

/-- Witness for C7: a first check on a fresh limiter is admitted (bucket
created full), allow admits by consuming one token and denies an empty
zero-refill bucket without consuming, the concrete five-then-denied burst
holds, and a drained bucket with refill rate 0.2 admits again after five
seconds. -/
theorem claim_C7_rate_limiter_witness :
    ((({ capacity := 5, refill := 0, buckets := [] } : RateLimiter).check
        (("k").toList) 0).1 = true) ∧
    (({ capacity := 5, refill_rate_per_sec := 0, tokens := 5, last_refill := 0 } :
        TokenBucket).allow 0 1 =
      (true, { capacity := 5, refill_rate_per_sec := 0, tokens := 4, last_refill := 0 })) ∧
    (({ capacity := 5, refill_rate_per_sec := 0, tokens := 0, last_refill := 0 } :
        TokenBucket).allow 0 1 =
      (false, { capacity := 5, refill_rate_per_sec := 0, tokens := 0, last_refill := 0 })) ∧
    ((({ capacity := 5, refill_rate_per_sec := 0.2, tokens := 0, last_refill := 0 } :
        TokenBucket).allow 5 1).1 = true) := by
  refine ⟨?_, ?_, ?_,
    claim_C7_rate_limiter.2.2.2 _ 5 (by norm_num) (by norm_num) (by norm_num)⟩
  · rw [claim_C7_rate_limiter.1 { capacity := 5, refill := 0, buckets := [] }
      (("k").toList) 0 rfl]
    have h := (claim_C7_rate_limiter.2.1
      { capacity := 5, refill_rate_per_sec := 0, tokens := 5, last_refill := 0 } 0).1
      (by norm_num)
    simp only [h]
  · have h := (claim_C7_rate_limiter.2.1
      { capacity := 5, refill_rate_per_sec := 0, tokens := 5, last_refill := 0 } 0).1
      (by norm_num)
    rw [h]
    norm_num
  · have h := (claim_C7_rate_limiter.2.1
      { capacity := 5, refill_rate_per_sec := 0, tokens := 0, last_refill := 0 } 0).2
      (by norm_num)
    rw [h]
    norm_num

-- ==========================================================
-- Login failure indistinguishability: claim C8
-- ==========================================================

/-- Claim C8: every failing login — rate-limit denial, unknown username,
wrong password, federated account — raises InvalidCredentials with the
identical message "Invalid credentials", and the caller-visible error of a
known-user/wrong-password login equals that of an unknown-user login. -/
theorem claim_C8_login_errors :
    (∀ (tj : AccessTokenClaims → List Nat) (hmacF : List Nat → List Nat → List Nat)
        (entropy : Nat → List Nat) (pbkdf2F : List Char → List Char → Nat → List Nat)
        (cfg : AuthConfig) (repo : InMemoryUserRepository) (limiter : RateLimiter)
        (wallNow clockNow t_work : ℚ) (username password ip : List Char),
      (limiter.check (("login:").toList ++ norm_username username ++ (":").toList ++ ip)
          wallNow).1 = false →
      (AuthService.login tj hmacF entropy pbkdf2F cfg repo limiter wallNow clockNow t_work
          username password ip).result =
        .error (.invalidCredentials (("Invalid credentials").toList))) ∧
    (∀ (tj : AccessTokenClaims → List Nat) (hmacF : List Nat → List Nat → List Nat)
        (entropy : Nat → List Nat) (pbkdf2F : List Char → List Char → Nat → List Nat)
        (cfg : AuthConfig) (repo : InMemoryUserRepository) (limiter : RateLimiter)
        (wallNow clockNow t_work : ℚ) (username password ip : List Char),
      (limiter.check (("login:").toList ++ norm_username username ++ (":").toList ++ ip)
          wallNow).1 = true →
      repo.get username = none →
      (AuthService.login tj hmacF entropy pbkdf2F cfg repo limiter wallNow clockNow t_work
          username password ip).result =
        .error (.invalidCredentials (("Invalid credentials").toList))) ∧
    (∀ (tj : AccessTokenClaims → List Nat) (hmacF : List Nat → List Nat → List Nat)
        (entropy : Nat → List Nat) (pbkdf2F : List Char → List Char → Nat → List Nat)
        (cfg : AuthConfig) (repo : InMemoryUserRepository) (limiter : RateLimiter)
        (wallNow clockNow t_work : ℚ) (username password ip : List Char) (u : User),
      (limiter.check (("login:").toList ++ norm_username username ++ (":").toList ++ ip)
          wallNow).1 = true →
      repo.get username = some u →
      PasswordHasher.verify pbkdf2F password u.password_hash = false →
      (AuthService.login tj hmacF entropy pbkdf2F cfg repo limiter wallNow clockNow t_work
          username password ip).result =
        .error (.invalidCredentials (("Invalid credentials").toList))) ∧
    (∀ (tj : AccessTokenClaims → List Nat) (hmacF : List Nat → List Nat → List Nat)
        (entropy : Nat → List Nat) (pbkdf2F : List Char → List Char → Nat → List Nat)
        (cfg : AuthConfig) (repo : InMemoryUserRepository) (limiter : RateLimiter)
        (wallNow clockNow t_work : ℚ) (username password ip : List Char) (u : User),
      (limiter.check (("login:").toList ++ norm_username username ++ (":").toList ++ ip)
          wallNow).1 = true →
      repo.get username = some u →
      u.password_hash.algorithm = ("google_oauth").toList →
      (AuthService.login tj hmacF entropy pbkdf2F cfg repo limiter wallNow clockNow t_work
          username password ip).result =
        .error (.invalidCredentials (("Invalid credentials").toList))) ∧
    (∀ (tj : AccessTokenClaims → List Nat) (hmacF : List Nat → List Nat → List Nat)
        (entropy : Nat → List Nat) (pbkdf2F : List Char → List Char → Nat → List Nat)
        (cfg : AuthConfig) (repo : InMemoryUserRepository) (limiter : RateLimiter)
        (wallNow clockNow t_work : ℚ) (u1 p1 u2 p2 ip : List Char) (u : User),
      (limiter.check (("login:").toList ++ norm_username u1 ++ (":").toList ++ ip)
          wallNow).1 = true →
      repo.get u1 = some u →
      PasswordHasher.verify pbkdf2F p1 u.password_hash = false →
      (limiter.check (("login:").toList ++ norm_username u2 ++ (":").toList ++ ip)
          wallNow).1 = true →
      repo.get u2 = none →
      (AuthService.login tj hmacF entropy pbkdf2F cfg repo limiter wallNow clockNow t_work
          u1 p1 ip).result =
        (AuthService.login tj hmacF entropy pbkdf2F cfg repo limiter wallNow clockNow t_work
          u2 p2 ip).result) := by
  have hlim : ∀ (tj : AccessTokenClaims → List Nat) (hmacF : List Nat → List Nat → List Nat)
      (entropy : Nat → List Nat) (pbkdf2F : List Char → List Char → Nat → List Nat)
      (cfg : AuthConfig) (repo : InMemoryUserRepository) (limiter : RateLimiter)
      (wallNow clockNow t_work : ℚ) (username password ip : List Char),
      (limiter.check (("login:").toList ++ norm_username username ++ (":").toList ++ ip)
          wallNow).1 = false →
      (AuthService.login tj hmacF entropy pbkdf2F cfg repo limiter wallNow clockNow t_work
          username password ip).result =
        .error (.invalidCredentials (("Invalid credentials").toList)) := by
    intro tj hmacF entropy pbkdf2F cfg repo limiter wallNow clockNow t_work username password ip hchk
    simp only [AuthService.login, hchk]
    rfl
  have hmiss : ∀ (tj : AccessTokenClaims → List Nat) (hmacF : List Nat → List Nat → List Nat)
      (entropy : Nat → List Nat) (pbkdf2F : List Char → List Char → Nat → List Nat)
      (cfg : AuthConfig) (repo : InMemoryUserRepository) (limiter : RateLimiter)
      (wallNow clockNow t_work : ℚ) (username password ip : List Char),
      (limiter.check (("login:").toList ++ norm_username username ++ (":").toList ++ ip)
          wallNow).1 = true →
      repo.get username = none →
      (AuthService.login tj hmacF entropy pbkdf2F cfg repo limiter wallNow clockNow t_work
          username password ip).result =
        .error (.invalidCredentials (("Invalid credentials").toList)) := by
    intro tj hmacF entropy pbkdf2F cfg repo limiter wallNow clockNow t_work username password ip hchk hget
    simp only [AuthService.login, hchk, hget]
    rfl
  have hwrong : ∀ (tj : AccessTokenClaims → List Nat) (hmacF : List Nat → List Nat → List Nat)
      (entropy : Nat → List Nat) (pbkdf2F : List Char → List Char → Nat → List Nat)
      (cfg : AuthConfig) (repo : InMemoryUserRepository) (limiter : RateLimiter)
      (wallNow clockNow t_work : ℚ) (username password ip : List Char) (u : User),
      (limiter.check (("login:").toList ++ norm_username username ++ (":").toList ++ ip)
          wallNow).1 = true →
      repo.get username = some u →
      PasswordHasher.verify pbkdf2F password u.password_hash = false →
      (AuthService.login tj hmacF entropy pbkdf2F cfg repo limiter wallNow clockNow t_work
          username password ip).result =
        .error (.invalidCredentials (("Invalid credentials").toList)) := by
    intro tj hmacF entropy pbkdf2F cfg repo limiter wallNow clockNow t_work username password ip u hchk hget hv
    simp only [AuthService.login, hchk, hget, hv]
    rfl
  refine ⟨hlim, hmiss, hwrong, ?_, ?_⟩
  · intro tj hmacF entropy pbkdf2F cfg repo limiter wallNow clockNow t_work username password ip u hchk hget halg
    have hv : PasswordHasher.verify pbkdf2F password u.password_hash = false := by
      simp [PasswordHasher.verify, halg]
    exact hwrong tj hmacF entropy pbkdf2F cfg repo limiter wallNow clockNow t_work
      username password ip u hchk hget hv
  · intro tj hmacF entropy pbkdf2F cfg repo limiter wallNow clockNow t_work u1 p1 u2 p2 ip u
      hchk1 hget1 hv1 hchk2 hget2
    rw [hwrong tj hmacF entropy pbkdf2F cfg repo limiter wallNow clockNow t_work
      u1 p1 ip u hchk1 hget1 hv1,
      hmiss tj hmacF entropy pbkdf2F cfg repo limiter wallNow clockNow t_work
      u2 p2 ip hchk2 hget2]

/-- Witness for C8: on a concrete repository holding a password user and a
federated user, the rate-limited, unknown-user, wrong-password and
federated login failures all produce the identical InvalidCredentials
error, and the wrong-password and unknown-user outcomes coincide. -/
theorem claim_C8_login_errors_witness :
    (AuthService.login tjDummy hmacDummy entropyDummy pbkdf2Dummy (defaultConfig [])
        emptyRepo c2limiter 0 0 0 (("alice").toList) (("pw").toList) (("ip").toList)).result =
      .error (.invalidCredentials (("Invalid credentials").toList)) ∧
    (AuthService.login tjDummy hmacDummy entropyDummy pbkdf2Dummy (defaultConfig [])
        c8repo c8limiter 0 0 0 (("nobody").toList) (("pw").toList) (("ip").toList)).result =
      .error (.invalidCredentials (("Invalid credentials").toList)) ∧
    (AuthService.login tjDummy hmacDummy entropyDummy pbkdf2Dummy (defaultConfig [])
        c8repo c8limiter 0 0 0 (("bob").toList) (("wrong").toList) (("ip").toList)).result =
      .error (.invalidCredentials (("Invalid credentials").toList)) ∧
    (AuthService.login tjDummy hmacDummy entropyDummy pbkdf2Dummy (defaultConfig [])
        c8repo c8limiter 0 0 0 (("carol").toList) [] (("ip").toList)).result =
      .error (.invalidCredentials (("Invalid credentials").toList)) ∧
    (AuthService.login tjDummy hmacDummy entropyDummy pbkdf2Dummy (defaultConfig [])
        c8repo c8limiter 0 0 0 (("bob").toList) (("wrong").toList) (("ip").toList)).result =
      (AuthService.login tjDummy hmacDummy entropyDummy pbkdf2Dummy (defaultConfig [])
        c8repo c8limiter 0 0 0 (("nobody").toList) (("pw").toList) (("ip").toList)).result := by
  have hadm : ∀ (username ip : List Char),
      (c8limiter.check (("login:").toList ++ norm_username username ++ (":").toList ++ ip)
        0).1 = true := by
    intro username ip
    simp only [c8limiter, RateLimiter.check, dictGet, TokenBucket.allow]
    norm_num
  have hden : (c2limiter.check (("login:").toList ++ norm_username (("alice").toList) ++
      (":").toList ++ (("ip").toList)) 0).1 = false := by
    have hkey : ("login:").toList ++ norm_username (("alice").toList) ++ (":").toList ++
        ("ip").toList = ("login:alice:ip").toList := by decide
    rw [hkey]
    simp only [c2limiter, RateLimiter.check, dictGet, TokenBucket.allow]
    norm_num
  refine ⟨claim_C8_login_errors.1 tjDummy hmacDummy entropyDummy pbkdf2Dummy
      (defaultConfig []) emptyRepo c2limiter 0 0 0 (("alice").toList) (("pw").toList)
      (("ip").toList) hden,
    claim_C8_login_errors.2.1 tjDummy hmacDummy entropyDummy pbkdf2Dummy
      (defaultConfig []) c8repo c8limiter 0 0 0 (("nobody").toList) (("pw").toList)
      (("ip").toList) (hadm _ _) (by decide),
    claim_C8_login_errors.2.2.1 tjDummy hmacDummy entropyDummy pbkdf2Dummy
      (defaultConfig []) c8repo c8limiter 0 0 0 (("bob").toList) (("wrong").toList)
      (("ip").toList) c8bob (hadm _ _) rfl (by decide),
    claim_C8_login_errors.2.2.2.1 tjDummy hmacDummy entropyDummy pbkdf2Dummy
      (defaultConfig []) c8repo c8limiter 0 0 0 (("carol").toList) [] (("ip").toList)
      c8fed (hadm _ _) rfl rfl,
    claim_C8_login_errors.2.2.2.2 tjDummy hmacDummy entropyDummy pbkdf2Dummy
      (defaultConfig []) c8repo c8limiter 0 0 0 (("bob").toList) (("wrong").toList)
      (("nobody").toList) (("pw").toList) (("ip").toList) c8bob (hadm _ _) rfl
      (by decide) (hadm _ _) (by decide)⟩

-- ==========================================================
-- Minimum response delay: claim C2
-- ==========================================================

theorem register_elapsed_cases (pbkdf2F : List Char → List Char → Nat → List Nat)
    (entropy : Nat → List Nat) (iterations : Nat) (cfg : AuthConfig)
    (repo : InMemoryUserRepository) (clockNow t_work : ℚ)
    (username email password : List Char) (roles : Option (List (List Char))) :
    (exceptIsOk (AuthService.register_user pbkdf2F entropy iterations cfg repo clockNow
        t_work username email password roles).result = false ∧
      (AuthService.register_user pbkdf2F entropy iterations cfg repo clockNow
        t_work username email password roles).elapsed_ms = t_work) ∨
    (exceptIsOk (AuthService.register_user pbkdf2F entropy iterations cfg repo clockNow
        t_work username email password roles).result = true ∧
      (AuthService.register_user pbkdf2F entropy iterations cfg repo clockNow
        t_work username email password roles).elapsed_ms =
        AuthService.ensure_min_delay cfg t_work) := by
  dsimp only [AuthService.register_user]
  split
  · exact Or.inl ⟨rfl, rfl⟩
  · split
    · exact Or.inl ⟨rfl, rfl⟩
    · split
      · exact Or.inl ⟨rfl, rfl⟩
      · split
        · exact Or.inl ⟨rfl, rfl⟩
        · exact Or.inr ⟨rfl, rfl⟩

/-- Counterexample to C2: a login that is denied by the rate limiter
returns immediately (elapsed time equal to the work time, here zero),
strictly below the configured 120 ms minimum delay — the rate-limited exit
raises before _ensure_min_delay runs. -/
theorem claim_C2_counterexample :
    (AuthService.login tjDummy hmacDummy entropyDummy pbkdf2Dummy (defaultConfig [])
        emptyRepo c2limiter 0 0 0 (("alice").toList) (("pw").toList)
        (("ip").toList)).elapsed_ms <
      (defaultConfig []).min_login_delay_ms := by
  have hden : (c2limiter.check (("login:").toList ++ norm_username (("alice").toList) ++
      (":").toList ++ (("ip").toList)) 0).1 = false := by
    have hkey : ("login:").toList ++ norm_username (("alice").toList) ++ (":").toList ++
        ("ip").toList = ("login:alice:ip").toList := by decide
    rw [hkey]
    simp only [c2limiter, RateLimiter.check, dictGet, TokenBucket.allow]
    norm_num
  simp only [AuthService.login, hden]
  norm_num [defaultConfig]

/-- Claim C2 as amended: the unknown-user, wrong-password and success exits
of login, and the success exit of register_user, are padded to at least
min_login_delay_ms − 1 ms (the pad only sleeps when more than 1 ms
remains, so up to 1 ms may be missing); the rate-limit denial exit of
login and every failure exit of register_user return after exactly the
work time, with no padding. -/
theorem claim_C2_amended :
    (∀ (tj : AccessTokenClaims → List Nat) (hmacF : List Nat → List Nat → List Nat)
        (entropy : Nat → List Nat) (pbkdf2F : List Char → List Char → Nat → List Nat)
        (cfg : AuthConfig) (repo : InMemoryUserRepository) (limiter : RateLimiter)
        (wallNow clockNow t_work : ℚ) (username password ip : List Char),
      (limiter.check (("login:").toList ++ norm_username username ++ (":").toList ++ ip)
          wallNow).1 = false →
      (AuthService.login tj hmacF entropy pbkdf2F cfg repo limiter wallNow clockNow t_work
          username password ip).elapsed_ms = t_work) ∧
    (∀ (tj : AccessTokenClaims → List Nat) (hmacF : List Nat → List Nat → List Nat)
        (entropy : Nat → List Nat) (pbkdf2F : List Char → List Char → Nat → List Nat)
        (cfg : AuthConfig) (repo : InMemoryUserRepository) (limiter : RateLimiter)
        (wallNow clockNow t_work : ℚ) (username password ip : List Char),
      (limiter.check (("login:").toList ++ norm_username username ++ (":").toList ++ ip)
          wallNow).1 = true →
      usersKeyConsistent repo →
      (AuthService.login tj hmacF entropy pbkdf2F cfg repo limiter wallNow clockNow t_work
          username password ip).elapsed_ms ≥ cfg.min_login_delay_ms - 1) ∧
    (∀ (pbkdf2F : List Char → List Char → Nat → List Nat) (entropy : Nat → List Nat)
        (iterations : Nat) (cfg : AuthConfig) (repo : InMemoryUserRepository)
        (clockNow t_work : ℚ) (username email password : List Char)
        (roles : Option (List (List Char))) (u : User),
      (AuthService.register_user pbkdf2F entropy iterations cfg repo clockNow t_work
          username email password roles).result = .ok u →
      (AuthService.register_user pbkdf2F entropy iterations cfg repo clockNow t_work
          username email password roles).elapsed_ms ≥ cfg.min_login_delay_ms - 1) ∧
    (∀ (pbkdf2F : List Char → List Char → Nat → List Nat) (entropy : Nat → List Nat)
        (iterations : Nat) (cfg : AuthConfig) (repo : InMemoryUserRepository)
        (clockNow t_work : ℚ) (username email password : List Char)
        (roles : Option (List (List Char))) (e : AuthErr),
      (AuthService.register_user pbkdf2F entropy iterations cfg repo clockNow t_work
          username email password roles).result = .error e →
      (AuthService.register_user pbkdf2F entropy iterations cfg repo clockNow t_work
          username email password roles).elapsed_ms = t_work) := by
  refine ⟨?_, ?_, ?_, ?_⟩
  · intro tj hmacF entropy pbkdf2F cfg repo limiter wallNow clockNow t_work
      username password ip hchk
    simp only [AuthService.login, hchk]
    rfl
  · intro tj hmacF entropy pbkdf2F cfg repo limiter wallNow clockNow t_work
      username password ip hchk hcons
    cases hget : repo.get username with
    | none =>
      simp only [AuthService.login, hchk, hget]
      exact ensure_min_delay_ge cfg t_work
    | some u =>
      cases hv : PasswordHasher.verify pbkdf2F password u.password_hash with
      | false =>
        simp only [AuthService.login, hchk, hget, hv]
        exact ensure_min_delay_ge cfg t_work
      | true =>
        have hmem : ((norm_username username), u) ∈ repo.users :=
          dictGet_mem _ _ _ hget
        have hkeyeq : norm_username username = norm_username u.username :=
          hcons _ hmem
        have hcont : dictContains repo.users (norm_username u.username) = true := by
          rw [← hkeyeq]
          simp only [InMemoryUserRepository.get] at hget
          simp [dictContains, hget]
        simp only [AuthService.login, hchk, hget, hv]
        simp only [Bool.not_true, Bool.false_eq_true, if_false]
        split
        · next e heq =>
          unfold InMemoryUserRepository.update at heq
          rw [if_pos (show dictContains (setUserAllIndexes repo _).users
              (norm_username _) = true from by
            rw [dictContains_iff_mem, setUser_keys, ← dictContains_iff_mem]
            exact hcont)] at heq
          simp at heq
        · exact ensure_min_delay_ge cfg t_work
  · intro pbkdf2F entropy iterations cfg repo clockNow t_work username email password
      roles u hok
    rcases register_elapsed_cases pbkdf2F entropy iterations cfg repo clockNow t_work
        username email password roles with ⟨hfail, _⟩ | ⟨_, he⟩
    · rw [hok] at hfail
      simp [exceptIsOk] at hfail
    · rw [he]
      exact ensure_min_delay_ge cfg t_work
  · intro pbkdf2F entropy iterations cfg repo clockNow t_work username email password
      roles e herr
    rcases register_elapsed_cases pbkdf2F entropy iterations cfg repo clockNow t_work
        username email password roles with ⟨_, he⟩ | ⟨hok, _⟩
    · exact he
    · rw [herr] at hok
      simp [exceptIsOk] at hok

theorem c8repo_consistent : usersKeyConsistent c8repo := by
  unfold usersKeyConsistent
  decide

theorem register_dave_ok : ∃ u,
    (AuthService.register_user pbkdf2Dummy entropyDummy 1 (defaultConfig []) emptyRepo
      0 0 (("dave").toList) (("dave@x.io").toList) (("Sup3rStr0ng!PW").toList)
      none).result = .ok u := by
  cases hres : (AuthService.register_user pbkdf2Dummy entropyDummy 1 (defaultConfig [])
      emptyRepo 0 0 (("dave").toList) (("dave@x.io").toList)
      (("Sup3rStr0ng!PW").toList) none).result with
  | ok u => exact ⟨u, rfl⟩
  | error e =>
    exfalso
    dsimp only [AuthService.register_user] at hres
    rw [if_neg (by decide), if_neg (by decide)] at hres
    simp only [enforce_strong_pw_ok] at hres
    simp only [InMemoryUserRepository.add, InMemoryUserRepository.next_id, emptyRepo,
      dictContains, dictGet] at hres
    simp at hres

/-- Witness for the amended C2: the denied login returns after exactly the
work time (7 ms), an admitted wrong-password login is padded to at least
119 ms, a successful registration is padded to at least 119 ms, and a
registration failing email validation returns after exactly the work time
(3 ms). -/
theorem claim_C2_amended_witness :
    (AuthService.login tjDummy hmacDummy entropyDummy pbkdf2Dummy (defaultConfig [])
        emptyRepo c2limiter 0 0 7 (("alice").toList) (("pw").toList)
        (("ip").toList)).elapsed_ms = 7 ∧
    (AuthService.login tjDummy hmacDummy entropyDummy pbkdf2Dummy (defaultConfig [])
        c8repo c8limiter 0 0 0 (("bob").toList) (("wrong").toList)
        (("ip").toList)).elapsed_ms ≥ (defaultConfig []).min_login_delay_ms - 1 ∧
    (AuthService.register_user pbkdf2Dummy entropyDummy 1 (defaultConfig []) emptyRepo
        0 0 (("dave").toList) (("dave@x.io").toList) (("Sup3rStr0ng!PW").toList)
        none).elapsed_ms ≥ (defaultConfig []).min_login_delay_ms - 1 ∧
    (AuthService.register_user pbkdf2Dummy entropyDummy 1 (defaultConfig []) emptyRepo
        0 3 (("eve").toList) (("notanemail").toList) (("Sup3rStr0ng!PW").toList)
        none).elapsed_ms = 3 := by
  have hden : (c2limiter.check (("login:").toList ++ norm_username (("alice").toList) ++
      (":").toList ++ (("ip").toList)) 0).1 = false := by
    have hkey : ("login:").toList ++ norm_username (("alice").toList) ++ (":").toList ++
        ("ip").toList = ("login:alice:ip").toList := by decide
    rw [hkey]
    simp only [c2limiter, RateLimiter.check, dictGet, TokenBucket.allow]
    norm_num
  have hadm : (c8limiter.check (("login:").toList ++ norm_username (("bob").toList) ++
      (":").toList ++ (("ip").toList)) 0).1 = true := by
    simp only [c8limiter, RateLimiter.check, dictGet, TokenBucket.allow]
    norm_num
  obtain ⟨u, hu⟩ := register_dave_ok
  refine ⟨claim_C2_amended.1 tjDummy hmacDummy entropyDummy pbkdf2Dummy
      (defaultConfig []) emptyRepo c2limiter 0 0 7 (("alice").toList) (("pw").toList)
      (("ip").toList) hden,
    claim_C2_amended.2.1 tjDummy hmacDummy entropyDummy pbkdf2Dummy
      (defaultConfig []) c8repo c8limiter 0 0 0 (("bob").toList) (("wrong").toList)
      (("ip").toList) hadm c8repo_consistent,
    claim_C2_amended.2.2.1 pbkdf2Dummy entropyDummy 1 (defaultConfig []) emptyRepo
      0 0 (("dave").toList) (("dave@x.io").toList) (("Sup3rStr0ng!PW").toList)
      none u hu,
    claim_C2_amended.2.2.2 pbkdf2Dummy entropyDummy 1 (defaultConfig []) emptyRepo
      0 3 (("eve").toList) (("notanemail").toList) (("Sup3rStr0ng!PW").toList)
      none (.authError (("Invalid email format").toList)) ?_⟩
  dsimp only [AuthService.register_user]
  rw [if_neg (by decide), if_pos (by decide)]

-- ==========================================================
-- Repository invariants: claim C3
-- ==========================================================

theorem add_ok_inv (r : InMemoryUserRepository) (u : User)
    (hnd : (r.users.map Prod.fst).Nodup) (hc : usersKeyConsistent r)
    (r2 : InMemoryUserRepository) (hok : r.add u = .ok r2) :
    (r2.users.map Prod.fst).Nodup ∧ usersKeyConsistent r2 := by
  unfold InMemoryUserRepository.add at hok
  by_cases hcont : dictContains r.users (norm_username u.username) = true
  · rw [if_pos hcont] at hok
    simp at hok
  · have hcont' : dictContains r.users (norm_username u.username) = false := by
      simpa using hcont
    rw [if_neg (by simp [hcont'])] at hok
    have husers : r2.users = dictInsert r.users (norm_username u.username) u := by
      injection hok with h
      rw [← h]
    constructor
    · rw [husers, dictInsert_keys_of_not_contains _ _ _ hcont']
      have hnotmem : norm_username u.username ∉ r.users.map Prod.fst := by
        rw [← dictContains_iff_mem]
        simp [hcont']
      rw [List.nodup_append]
      refine ⟨hnd, List.nodup_singleton _, ?_⟩
      intro a ha hb
      rw [List.mem_singleton] at hb
      subst hb
      exact hnotmem ha
    · intro kv hkv
      rw [husers] at hkv
      rcases dictInsert_mem_or _ _ _ _ hkv with hm | hm
      · exact hc _ hm
      · rw [hm]

theorem update_ok_inv (r : InMemoryUserRepository) (u : User)
    (hnd : (r.users.map Prod.fst).Nodup) (hc : usersKeyConsistent r)
    (r2 : InMemoryUserRepository) (hok : r.update u = .ok r2) :
    (r2.users.map Prod.fst).Nodup ∧ usersKeyConsistent r2 := by
  unfold InMemoryUserRepository.update at hok
  by_cases hcont : dictContains r.users (norm_username u.username) = true
  · rw [if_pos hcont] at hok
    have husers : r2.users = dictInsert r.users (norm_username u.username) u := by
      injection hok with h
      rw [← h]
    constructor
    · rw [husers, dictInsert_keys_of_contains _ _ _ hcont]
      exact hnd
    · intro kv hkv
      rw [husers] at hkv
      rcases dictInsert_mem_or _ _ _ _ hkv with hm | hm
      · exact hc _ hm
      · rw [hm]
  · rw [if_neg hcont] at hok
    simp at hok

theorem applyRepoOps_inv : ∀ (ops : List RepoOp) (r : InMemoryUserRepository),
    (r.users.map Prod.fst).Nodup → usersKeyConsistent r →
    ((applyRepoOps r ops).users.map Prod.fst).Nodup ∧
      usersKeyConsistent (applyRepoOps r ops)
  | [], r, hnd, hc => ⟨hnd, hc⟩
  | op :: ops, r, hnd, hc => by
    have hstep : ((applyRepoOp r op).users.map Prod.fst).Nodup ∧
        usersKeyConsistent (applyRepoOp r op) := by
      cases op with
      | addU u =>
        simp only [applyRepoOp]
        cases hres : r.add u with
        | ok r2 => exact add_ok_inv r u hnd hc r2 hres
        | error e => exact ⟨hnd, hc⟩
      | updateU u =>
        simp only [applyRepoOp]
        cases hres : r.update u with
        | ok r2 => exact update_ok_inv r u hnd hc r2 hres
        | error e => exact ⟨hnd, hc⟩
    have := applyRepoOps_inv ops (applyRepoOp r op) hstep.1 hstep.2
    simpa [applyRepoOps, List.foldl_cons] using this

theorem usernames_unique_of_inv (r : InMemoryUserRepository)
    (hnd : (r.users.map Prod.fst).Nodup) (hc : usersKeyConsistent r) :
    r.users.Pairwise
      (fun a b => norm_username a.2.username ≠ norm_username b.2.username) := by
  rw [List.Nodup, List.pairwise_map] at hnd
  refine hnd.imp_of_mem ?_
  intro a b ha hb hne
  rw [← hc a ha, ← hc b hb]
  exact hne

/-- Counterexample to C3: two adds with distinct usernames but the same
lowercased email both succeed, leaving two distinct stored users that share
the email — add never checks the email index, so email uniqueness is not an
invariant of the repository. -/
theorem claim_C3_counterexample :
    exceptIsOk (emptyRepo.add c3u1) = true ∧
    exceptIsOk ((applyRepoOps emptyRepo [RepoOp.addU c3u1]).add c3u2) = true ∧
    (applyRepoOps emptyRepo [RepoOp.addU c3u1, RepoOp.addU c3u2]).users.map
        (fun kv => lowerStr kv.2.email) =
      [("shared@example.com").toList, ("shared@example.com").toList] ∧
    c3u1.id ≠ c3u2.id := by
  refine ⟨by decide, by decide, by decide, by decide⟩

/-- Claim C3 as amended: every sequence of add and update operations from
the empty repository preserves uniqueness of normalized usernames (the
username index is keyed by them and its keys stay duplicate-free); add
fails with UserAlreadyExists exactly on a normalized-username collision and
update fails when the user is not present — but adds do not check the
email index, so two stored users may share the same lowercased email. -/
theorem claim_C3_amended :
    (∀ ops : List RepoOp,
      ((applyRepoOps emptyRepo ops).users.map Prod.fst).Nodup ∧
      (applyRepoOps emptyRepo ops).users.Pairwise
        (fun a b => norm_username a.2.username ≠ norm_username b.2.username)) ∧
    (∀ (r : InMemoryUserRepository) (u : User),
      dictContains r.users (norm_username u.username) = true →
      r.add u = .error (.userAlreadyExists u.username)) ∧
    (∀ (r : InMemoryUserRepository) (u : User),
      dictContains r.users (norm_username u.username) = false →
      r.update u = .error (.authError (("Cannot update missing user").toList))) := by
  refine ⟨?_, ?_, ?_⟩
  · intro ops
    have h0 : ((emptyRepo.users.map Prod.fst).Nodup) := by simp [emptyRepo]
    have hc0 : usersKeyConsistent emptyRepo := by
      intro kv hkv
      simp [emptyRepo] at hkv
    have hinv := applyRepoOps_inv ops emptyRepo h0 hc0
    exact ⟨hinv.1, usernames_unique_of_inv _ hinv.1 hinv.2⟩
  · intro r u hcont
    unfold InMemoryUserRepository.add
    rw [if_pos hcont]
  · intro r u hcont
    unfold InMemoryUserRepository.update
    rw [if_neg (by simp [hcont])]

/-- Witness for the amended C3: a colliding add on a repository already
holding alice is rejected with UserAlreadyExists, and an update of a user
absent from the empty repository is rejected. -/
theorem claim_C3_amended_witness :
    (applyRepoOps emptyRepo [RepoOp.addU c3u1]).add c3u1 =
      .error (.userAlreadyExists c3u1.username) ∧
    emptyRepo.update c3u2 =
      .error (.authError (("Cannot update missing user").toList)) := by
  exact ⟨claim_C3_amended.2.1 _ c3u1 (by decide),
    claim_C3_amended.2.2 emptyRepo c3u2 (by decide)⟩

-- ==========================================================
-- Registration id assignment: claim C10
-- ==========================================================

theorem add_ok_next (r : InMemoryUserRepository) (u : User)
    (r2 : InMemoryUserRepository) (hok : r.add u = .ok r2) :
    r2.next_user_id = r.next_user_id := by
  unfold InMemoryUserRepository.add at hok
  by_cases hcont : dictContains r.users (norm_username u.username) = true
  · rw [if_pos hcont] at hok
    simp at hok
  · rw [if_neg hcont] at hok
    injection hok with h
    rw [← h]

theorem register_mono_aux (pbkdf2F : List Char → List Char → Nat → List Nat)
    (entropy : Nat → List Nat) (iterations : Nat) (cfg : AuthConfig)
    (repo : InMemoryUserRepository) (clockNow t_work : ℚ)
    (username email password : List Char) (roles : Option (List (List Char))) :
    (∀ u, (AuthService.register_user pbkdf2F entropy iterations cfg repo clockNow t_work
        username email password roles).result = .ok u →
      u.id = repo.next_user_id ∧
      (AuthService.register_user pbkdf2F entropy iterations cfg repo clockNow t_work
        username email password roles).repo.next_user_id = repo.next_user_id + 1) ∧
    repo.next_user_id ≤
      (AuthService.register_user pbkdf2F entropy iterations cfg repo clockNow t_work
        username email password roles).repo.next_user_id := by
  dsimp only [AuthService.register_user]
  split
  · exact ⟨fun u hu => by simp at hu, le_refl _⟩
  · split
    · exact ⟨fun u hu => by simp at hu, le_refl _⟩
    · split
      · exact ⟨fun u hu => by simp at hu, le_refl _⟩
      · split
        · next r2 heq =>
          exact ⟨fun u hu => by simp at hu, by
            dsimp only [InMemoryUserRepository.next_id]
            omega⟩
        · next r2 heq =>
          have hnext := add_ok_next _ _ _ heq
          dsimp only [InMemoryUserRepository.next_id] at hnext ⊢
          constructor
          · intro u hu
            injection hu with h
            rw [← h]
            exact ⟨rfl, by rw [hnext]⟩
          · omega

theorem registerIds_increasing_aux (pbkdf2F : List Char → List Char → Nat → List Nat)
    (entropy : Nat → List Nat) (iterations : Nat) (cfg : AuthConfig)
    (clockNow t_work : ℚ) :
    ∀ (inputs : List RegInput) (r : InMemoryUserRepository),
      (∀ i ∈ registerSeqIds pbkdf2F entropy iterations cfg clockNow t_work r inputs,
        r.next_user_id ≤ i) ∧
      (registerSeqIds pbkdf2F entropy iterations cfg clockNow t_work r inputs).Pairwise
        (· < ·)
  | [], r => by simp [registerSeqIds]
  | i :: is, r => by
    have hmono := register_mono_aux pbkdf2F entropy iterations cfg r clockNow t_work
      i.username i.email i.password i.roles
    have ih := registerIds_increasing_aux pbkdf2F entropy iterations cfg clockNow t_work
      is (AuthService.register_user pbkdf2F entropy iterations cfg r clockNow t_work
        i.username i.email i.password i.roles).repo
    dsimp only [registerSeqIds]
    cases hres : (AuthService.register_user pbkdf2F entropy iterations cfg r clockNow
        t_work i.username i.email i.password i.roles).result with
    | error e =>
      refine ⟨fun j hj => le_trans hmono.2 (ih.1 j hj), ih.2⟩
    | ok u =>
      obtain ⟨hid, hnext⟩ := hmono.1 u hres
      constructor
      · intro j hj
        rw [List.mem_cons] at hj
        rcases hj with hj | hj
        · omega
        · have := ih.1 j hj
          omega
      · rw [List.pairwise_cons]
        refine ⟨fun j hj => ?_, ih.2⟩
        have := ih.1 j hj
        omega

/-- Claim C10: register_user takes the next id only after username, email
and policy validation all pass (those failures leave the repository,
counter included, unchanged); a normalized-username collision in the
insert fails with UserAlreadyExists leaving every index unchanged but the
counter advanced by one; a successful registration assigns exactly the
pre-call counter value as the new user's id and advances the counter; and
across any sequence of register calls the ids of the successful ones are
strictly increasing (though they may skip values). -/
theorem claim_C10_register_ids :
    (∀ (pbkdf2F : List Char → List Char → Nat → List Nat) (entropy : Nat → List Nat)
        (iterations : Nat) (cfg : AuthConfig) (repo : InMemoryUserRepository)
        (clockNow t_work : ℚ) (username email password : List Char)
        (roles : Option (List (List Char))),
      norm_username username = [] →
      (AuthService.register_user pbkdf2F entropy iterations cfg repo clockNow t_work
        username email password roles).repo = repo ∧
      exceptIsOk (AuthService.register_user pbkdf2F entropy iterations cfg repo clockNow
        t_work username email password roles).result = false) ∧
    (∀ (pbkdf2F : List Char → List Char → Nat → List Nat) (entropy : Nat → List Nat)
        (iterations : Nat) (cfg : AuthConfig) (repo : InMemoryUserRepository)
        (clockNow t_work : ℚ) (username email password : List Char)
        (roles : Option (List (List Char))),
      norm_username username ≠ [] → validate_email email = false →
      (AuthService.register_user pbkdf2F entropy iterations cfg repo clockNow t_work
        username email password roles).repo = repo ∧
      exceptIsOk (AuthService.register_user pbkdf2F entropy iterations cfg repo clockNow
        t_work username email password roles).result = false) ∧
    (∀ (pbkdf2F : List Char → List Char → Nat → List Nat) (entropy : Nat → List Nat)
        (iterations : Nat) (cfg : AuthConfig) (repo : InMemoryUserRepository)
        (clockNow t_work : ℚ) (username email password : List Char)
        (roles : Option (List (List Char))) (e : AuthErr),
      norm_username username ≠ [] → validate_email email = true →
      enforce_password_policy password = .error e →
      (AuthService.register_user pbkdf2F entropy iterations cfg repo clockNow t_work
        username email password roles).repo = repo ∧
      (AuthService.register_user pbkdf2F entropy iterations cfg repo clockNow t_work
        username email password roles).result = .error e) ∧
    (∀ (pbkdf2F : List Char → List Char → Nat → List Nat) (entropy : Nat → List Nat)
        (iterations : Nat) (cfg : AuthConfig) (repo : InMemoryUserRepository)
        (clockNow t_work : ℚ) (username email password : List Char)
        (roles : Option (List (List Char))),
      norm_username username ≠ [] → validate_email email = true →
      enforce_password_policy password = .ok () →
      dictContains repo.users (norm_username username) = true →
      (AuthService.register_user pbkdf2F entropy iterations cfg repo clockNow t_work
        username email password roles).result =
          .error (.userAlreadyExists (norm_username username)) ∧
      (AuthService.register_user pbkdf2F entropy iterations cfg repo clockNow t_work
        username email password roles).repo.users = repo.users ∧
      (AuthService.register_user pbkdf2F entropy iterations cfg repo clockNow t_work
        username email password roles).repo.users_by_id = repo.users_by_id ∧
      (AuthService.register_user pbkdf2F entropy iterations cfg repo clockNow t_work
        username email password roles).repo.users_by_email = repo.users_by_email ∧
      (AuthService.register_user pbkdf2F entropy iterations cfg repo clockNow t_work
        username email password roles).repo.next_user_id = repo.next_user_id + 1) ∧
    (∀ (pbkdf2F : List Char → List Char → Nat → List Nat) (entropy : Nat → List Nat)
        (iterations : Nat) (cfg : AuthConfig) (repo : InMemoryUserRepository)
        (clockNow t_work : ℚ) (username email password : List Char)
        (roles : Option (List (List Char))) (u : User),
      (AuthService.register_user pbkdf2F entropy iterations cfg repo clockNow t_work
        username email password roles).result = .ok u →
      u.id = repo.next_user_id ∧
      (AuthService.register_user pbkdf2F entropy iterations cfg repo clockNow t_work
        username email password roles).repo.next_user_id = repo.next_user_id + 1) ∧
    (∀ (pbkdf2F : List Char → List Char → Nat → List Nat) (entropy : Nat → List Nat)
        (iterations : Nat) (cfg : AuthConfig) (clockNow t_work : ℚ)
        (inputs : List RegInput) (r : InMemoryUserRepository),
      (registerSeqIds pbkdf2F entropy iterations cfg clockNow t_work r inputs).Pairwise
        (· < ·)) := by
  refine ⟨?_, ?_, ?_, ?_, ?_, ?_⟩
  · intro pbkdf2F entropy iterations cfg repo clockNow t_work username email password
      roles h1
    dsimp only [AuthService.register_user]
    rw [if_pos h1]
    exact ⟨rfl, rfl⟩
  · intro pbkdf2F entropy iterations cfg repo clockNow t_work username email password
      roles h1 h2
    dsimp only [AuthService.register_user]
    rw [if_neg h1, if_pos (by simp [h2])]
    exact ⟨rfl, rfl⟩
  · intro pbkdf2F entropy iterations cfg repo clockNow t_work username email password
      roles e h1 h2 h3
    dsimp only [AuthService.register_user]
    rw [if_neg h1, if_neg (by simp [h2]), h3]
    exact ⟨rfl, rfl⟩
  · intro pbkdf2F entropy iterations cfg repo clockNow t_work username email password
      roles h1 h2 h3 h4
    dsimp only [AuthService.register_user]
    rw [if_neg h1, if_neg (by simp [h2]), h3]
    have hadd : ({ repo with next_user_id := repo.next_user_id + 1 } :
        InMemoryUserRepository).add
        { id := repo.next_user_id, username := norm_username username,
          email := lowerStr (stripStr email),
          password_hash := PasswordHasher.hash pbkdf2F entropy iterations password,
          roles := (match roles with
                    | some (r :: rs) => dedupStrs (r :: rs)
                    | _ => [("user").toList]),
          permissions := [], created_at := clockNow, last_login := none,
          refresh_tokens := [] } =
        .error (.userAlreadyExists (norm_username username)) := by
      unfold InMemoryUserRepository.add
      rw [if_pos ?_]
      dsimp only
      rw [norm_username_idem]
      exact h4
    dsimp only [InMemoryUserRepository.next_id]
    rw [hadd]
    exact ⟨rfl, rfl, rfl, rfl, rfl⟩
  · intro pbkdf2F entropy iterations cfg repo clockNow t_work username email password
      roles u hok
    exact (register_mono_aux pbkdf2F entropy iterations cfg repo clockNow t_work
      username email password roles).1 u hok
  · intro pbkdf2F entropy iterations cfg clockNow t_work inputs r
    exact (registerIds_increasing_aux pbkdf2F entropy iterations cfg clockNow t_work
      inputs r).2

/-- Witness for C10: an empty username, an invalid email and a too-short
password each leave the concrete repository (counter included) untouched;
a colliding registration of "bob" fails with UserAlreadyExists yet
advances the counter; and a successful registration on the empty
repository hands out exactly the pre-call counter value as the id. -/
theorem claim_C10_register_ids_witness :
    (AuthService.register_user pbkdf2Dummy entropyDummy 1 (defaultConfig []) c8repo 0 0
      [] (("x@y.zz").toList) (("Sup3rStr0ng!PW").toList) none).repo = c8repo ∧
    (AuthService.register_user pbkdf2Dummy entropyDummy 1 (defaultConfig []) c8repo 0 0
      (("eve").toList) (("notanemail").toList) (("Sup3rStr0ng!PW").toList)
      none).repo = c8repo ∧
    (AuthService.register_user pbkdf2Dummy entropyDummy 1 (defaultConfig []) c8repo 0 0
      (("dave").toList) (("dave@x.io").toList) (("short").toList) none).repo = c8repo ∧
    (AuthService.register_user pbkdf2Dummy entropyDummy 1 (defaultConfig []) c8repo 0 0
      (("bob").toList) (("bob2@x.io").toList) (("Sup3rStr0ng!PW").toList)
      none).result = .error (.userAlreadyExists (norm_username (("bob").toList))) ∧
    (AuthService.register_user pbkdf2Dummy entropyDummy 1 (defaultConfig []) c8repo 0 0
      (("bob").toList) (("bob2@x.io").toList) (("Sup3rStr0ng!PW").toList)
      none).repo.next_user_id = c8repo.next_user_id + 1 ∧
    (∃ u, (AuthService.register_user pbkdf2Dummy entropyDummy 1 (defaultConfig [])
        emptyRepo 0 0 (("dave").toList) (("dave@x.io").toList)
        (("Sup3rStr0ng!PW").toList) none).result = .ok u ∧
      u.id = emptyRepo.next_user_id) := by
  have hcol := claim_C10_register_ids.2.2.2.1 pbkdf2Dummy entropyDummy 1
    (defaultConfig []) c8repo 0 0 (("bob").toList) (("bob2@x.io").toList)
    (("Sup3rStr0ng!PW").toList) none (by decide) (by decide) enforce_strong_pw_ok
    (by decide)
  obtain ⟨u, hu⟩ := register_dave_ok
  refine ⟨(claim_C10_register_ids.1 pbkdf2Dummy entropyDummy 1 (defaultConfig [])
      c8repo 0 0 [] (("x@y.zz").toList) (("Sup3rStr0ng!PW").toList) none
      (by decide)).1,
    (claim_C10_register_ids.2.1 pbkdf2Dummy entropyDummy 1 (defaultConfig [])
      c8repo 0 0 (("eve").toList) (("notanemail").toList)
      (("Sup3rStr0ng!PW").toList) none (by decide) (by decide)).1,
    (claim_C10_register_ids.2.2.1 pbkdf2Dummy entropyDummy 1 (defaultConfig [])
      c8repo 0 0 (("dave").toList) (("dave@x.io").toList) (("short").toList) none
      (.passwordPolicyError (("Password too short (min 10).").toList))
      (by decide) (by decide) (by decide)).1,
    hcol.1, hcol.2.2.2.2,
    ⟨u, hu, (claim_C10_register_ids.2.2.2.2.1 pbkdf2Dummy entropyDummy 1
      (defaultConfig []) emptyRepo 0 0 (("dave").toList) (("dave@x.io").toList)
      (("Sup3rStr0ng!PW").toList) none u hu).1⟩⟩

-- ==========================================================
-- Refresh rotation: claim C1
-- ==========================================================

theorem c1_issue_refresh :
    AuthService.issue_refresh_token hmacDummy entropyDummy c1cfg 0 = (c1tok, c1rid) := by
  unfold AuthService.issue_refresh_token
  have hflr : pyInt ((0 : ℚ) + c1cfg.refresh_token_ttl) = 604800 := by
    norm_num [pyInt, c1cfg, defaultConfig]
  simp only [hflr]
  decide

/-- Claim C1 fails as a code bug: on a repository whose user alice holds the
valid, unexpired refresh id of the presented token, with rotation enabled,
refresh raises ValueError instead of returning fresh tokens — the source
unpacks the single token string returned by _issue_access_token into two
variables (`jwt, claims = self._issue_access_token(user)`), so the success
path never completes; the consumed id has nevertheless already been popped
from the shared user object, so alice's refresh-token map is left empty and
a second refresh with the same token fails with
TokenError("Unknown refresh token"), while no new refresh id (and no
expiry, configured-TTL or otherwise) is ever stored. -/
theorem claim_C1_refresh_crashes :
    (AuthService.refresh tjDummy hmacDummy entropyDummy c1cfg c1repo 0 0 0
        c1tok).result = .error .valueError ∧
    ((AuthService.refresh tjDummy hmacDummy entropyDummy c1cfg c1repo 0 0 0
        c1tok).repo.get (("alice").toList)).map User.refresh_tokens = some [] ∧
    (AuthService.refresh tjDummy hmacDummy entropyDummy c1cfg
        (AuthService.refresh tjDummy hmacDummy entropyDummy c1cfg c1repo 0 0 0
          c1tok).repo 0 0 0 c1tok).result =
      .error (.tokenError (("Unknown refresh token").toList)) := by
  refine ⟨by decide, by decide, by decide⟩
